import Mathlib

/-!
# FAudio mixing core: a shallow embedding in Lean 4

This file embeds, as executable Lean definitions, the decode → resample →
mix pipeline of `src/src/FAudio_internal.c` (FAudio, an XAudio
reimplementation): the buffer-queue state machine
(`FAudio_INTERNAL_DecodeBuffers`), the fixed-point linear resampler
(`FAudio_INTERNAL_ResamplePCM`), the source and submix mix pipelines
(`FAudio_INTERNAL_MixSource` / `FAudio_INTERNAL_MixSubmix`), the engine
update loop (`FAudio_INTERNAL_UpdateEngine`) and the built-in PCM and
MSADPCM sample decoders.  Theorems about these definitions settle the
frozen specification claims.

Modelling conventions:

* C `uint32_t` / `uint64_t` arithmetic is `Nat` with explicit `% 2^32` /
  `% 2^64` at the operations where wraparound can occur; `int16_t` values
  are `Int` with an explicit two's-complement truncation where the C code
  casts.  C integer division (truncation toward zero) is `Int.tdiv`.
* `float` / `double` arithmetic is idealised as exact rational (`ℚ`)
  arithmetic.  Every floating-point claim we confirm only involves
  operations that are exact in IEEE arithmetic on the relevant inputs
  (int16 → float conversion, multiplication by 0, division by the power
  of two 32768), so the idealisation is faithful there.
* Callback invocations are modelled as emitted events; a `Callbacks`
  record of Booleans models which callback function pointers are non-NULL.
* Buffers are read through total lookups (`List.getD` with default 0);
  the places where the C code can over-read its backing storage (the
  `EXTRA_DECODE_PADDING` lookahead, acknowledged as a defect in the
  source's own comments) therefore read 0 in the model.
* Loops whose C termination argument is not structural are given explicit
  fuel; every theorem supplies (or quantifies over) sufficient fuel.

Constants that live in headers outside `src/` (`EXTRA_DECODE_PADDING`,
`FAUDIO_MAX_VOLUME_LEVEL`, the `FAudio_clamp` / `FAudio_min` /
`FAudio_zero` macros, `FAUDIO_END_OF_STREAM`) are modelled from the spec:
the padding and the volume ceiling are kept as parameters, the clamp is
the usual two-sided clamp to a symmetric ceiling described in §4.3 of the
spec, `FAudio_zero` is a byte-wise zero fill, and the end-of-stream flag
is a Boolean field.
-/

namespace FAudio

/-- Q32.32 fixed point: `FIXED_PRECISION` = 32. -/
def FIXED_PRECISION : Nat := 32

/-- `FIXED_ONE = 1 << 32`. -/
def FIXED_ONE : Nat := 1 <<< FIXED_PRECISION

/-- `FIXED_FRACTION_MASK = FIXED_ONE - 1`.  For `Nat` modelling we use it
through `% FIXED_ONE` (`x &&& FIXED_FRACTION_MASK = x % 2^32`). -/
def FIXED_FRACTION_MASK : Nat := FIXED_ONE - 1

/-- `FIXED_TO_DOUBLE`: integer part plus fraction part over `2^32`,
idealised over ℚ (exact for the values the code produces). -/
def fixedToQ (fxd : Nat) : ℚ :=
  ((fxd >>> FIXED_PRECISION : Nat) : ℚ) + ((fxd % FIXED_ONE : Nat) : ℚ) / (FIXED_ONE : ℚ)

/-- `DOUBLE_TO_FIXED(dbl) = (uint64_t)(dbl * FIXED_ONE + 0.5)`: for the
nonnegative step values the code feeds it, the C cast truncates toward
zero, i.e. takes the floor. -/
def DOUBLE_TO_FIXED (dbl : ℚ) : Nat :=
  (⌊dbl * (FIXED_ONE : ℚ) + 1/2⌋).toNat

/-- Modelled from the spec (§4.3): `FAudio_clamp(val, min, max)` from the
header `FAudio_internal.h` (not under `src/`), the two-sided clamp to a
symmetric ceiling. -/
def FAudio_clamp (val lo hi : ℚ) : ℚ :=
  if val < lo then lo else if val > hi then hi else val

/-- C `uint32_t` subtraction `a - b` (wraps modulo `2^32`). -/
def u32sub (a b : Nat) : Nat :=
  (a + 2 ^ 32 - b % 2 ^ 32) % 2 ^ 32

theorem u32sub_of_le {a b : Nat} (hb : b ≤ a) (ha : a < 2 ^ 32) :
    u32sub a b = a - b := by
  unfold u32sub
  omega

/-- Write `vals` into `cache` starting at element index `off`
(modelling a decoder writing into the int16 decode scratch buffer). -/
def writeAt (cache : List Int) (off : Nat) (vals : List Int) : List Int :=
  cache.take off ++ vals ++ cache.drop (off + vals.length)

/-- `FAudio_zero` on `len` consecutive int16 elements starting at index
`off` of the scratch buffer. -/
def zeroAt (cache : List Int) (off len : Nat) : List Int :=
  cache.take off ++ List.replicate len 0 ++ cache.drop (off + len)

/-- Source-voice callback events (callback invocations are modelled as
emitted events carrying the buffer's opaque context where the C callback
receives `pContext`). -/
inductive Event where
  | bufferStart (ctx : Nat)
  | loopEnd (ctx : Nat)
  | bufferEnd (ctx : Nat)
  | streamEnd
  | passStart (bytes : Nat)
  | passEnd
  deriving DecidableEq, Repr

/-- Which callback function pointers are non-NULL on
`voice->src.callback` (`none` models a NULL callback structure). -/
structure Callbacks where
  onBufferStart : Bool
  onLoopEnd : Bool
  onBufferEnd : Bool
  onStreamEnd : Bool
  onPassStart : Bool
  onPassEnd : Bool
  deriving DecidableEq, Repr

/-- `FAudioBuffer`: the queued audio buffer.  `Flags & FAUDIO_END_OF_STREAM`
is modelled as the Boolean `eosFlag` (the flag constant lives in a header
outside `src/`).  `pAudioData` is the raw payload as a byte list and
`pContext` the opaque context handle. -/
structure FAudioBuffer where
  eosFlag : Bool
  pAudioData : List Nat
  PlayBegin : Nat
  PlayLength : Nat
  LoopBegin : Nat
  LoopLength : Nat
  LoopCount : Nat
  pContext : Nat
  deriving DecidableEq, Repr

/-- The source-voice state touched by `FAudio_INTERNAL_DecodeBuffers`:
the buffer queue (a singly linked FIFO, head is the buffer being
decoded), the integer play position `curBufferOffset`, the fractional
position `curBufferOffsetDec`, and the int16 decode scratch buffer. -/
structure DecodeState where
  bufferList : List FAudioBuffer
  curBufferOffset : Nat
  curBufferOffsetDec : Nat
  decodeCache : List Int
  deriving DecidableEq, Repr

/-- A decode capability (`voice->src.decode`): from the buffer, the
current offset and a sample count, produce `samples * nChannels` int16
values (§6 of the spec: the decoder must fully populate the request). -/
def DecodeFn : Type := FAudioBuffer → Nat → Nat → List Int

/-- Result of `FAudio_INTERNAL_DecodeBuffers`: final state, the final
`decoded` counter, the returned `resetOffset`, and the emitted events. -/
structure DecodeResult where
  state : DecodeState
  decoded : Nat
  resetOffset : Nat
  events : List Event
  deriving DecidableEq, Repr

/-- The start-of-buffer callback events of one decode-loop iteration
(lines 97–106): `OnBufferStart` fires when the iteration begins with
`curBufferOffset == buffer->PlayBegin` and the callback is registered. -/
def startEvt (cb : Option Callbacks) (pb ctx off : Nat) : List Event :=
  if off = pb ∧ (cb.map Callbacks.onBufferStart).getD false = true then
    [Event.bufferStart ctx]
  else []

/-- The `OnLoopEnd` callback event (lines 137–144). -/
def loopEndEvt (cb : Option Callbacks) (ctx : Nat) : List Event :=
  if (cb.map Callbacks.onLoopEnd).getD false = true then [Event.loopEnd ctx]
  else []

/-- The buffer-finalisation callback events (lines 154–171):
`OnBufferEnd`, then `OnStreamEnd` when the end-of-stream flag is set. -/
def endEvt (cb : Option Callbacks) (ctx : Nat) (eos : Bool) : List Event :=
  (if (cb.map Callbacks.onBufferEnd).getD false = true then
    [Event.bufferEnd ctx] else []) ++
  (if eos ∧ (cb.map Callbacks.onStreamEnd).getD false = true then
    [Event.streamEnd] else [])

/-- One pass of the `while (decoded < *toDecode && buffer != NULL)` loop
of `FAudio_INTERNAL_DecodeBuffers` (lines 93–199), with explicit fuel.
Faithful points: the start-of-buffer callback fires whenever the
iteration begins with `curBufferOffset == buffer->PlayBegin`; the
iteration end is `LoopLength` when `LoopCount > 0 && LoopLength > 0`,
else `PlayLength`; `endRead` uses `uint32` subtraction; on end-of-buffer
with `LoopCount > 0` the position rewinds to `LoopBegin` and the counter
decrements unless it is `0xFF`; otherwise the buffer is finalised (EOS
resets the fractional offset, callbacks fire, the queue advances), and if
the queue empties the tail `FAudio_zero` covers `(decoding - endRead)`
int16 elements starting at element `decoded * nChannels + endRead` —
exactly as in the source. -/
def decodeLoop (decode : DecodeFn) (nCh : Nat) (cb : Option Callbacks)
    (toDecode : Nat) :
    Nat → DecodeState → Nat → DecodeResult
  | 0, s, decoded => ⟨s, decoded, 0, []⟩
  | fuel + 1, s, decoded =>
    match s.bufferList with
    | [] => ⟨s, decoded, 0, []⟩
    | b :: rest =>
      if decoded < toDecode then
        let decoding := toDecode - decoded
        let startEvs := startEvt cb b.PlayBegin b.pContext s.curBufferOffset
        let endv : Nat :=
          if b.LoopCount > 0 ∧ b.LoopLength > 0 then b.LoopLength else b.PlayLength
        let endRead : Nat := min (u32sub endv s.curBufferOffset) decoding
        let cache1 := writeAt s.decodeCache (decoded * nCh)
          (decode b s.curBufferOffset endRead)
        if endRead < decoding then
          if b.LoopCount > 0 then
            let b1 : FAudioBuffer :=
              { b with LoopCount := if b.LoopCount < 0xFF then b.LoopCount - 1 else b.LoopCount }
            let s1 : DecodeState :=
              { s with bufferList := b1 :: rest, curBufferOffset := b.LoopBegin,
                       decodeCache := cache1 }
            let r := decodeLoop decode nCh cb toDecode fuel s1 (decoded + endRead)
            ⟨r.state, r.decoded, endRead + r.resetOffset,
              startEvs ++ loopEndEvt cb b.pContext ++ r.events⟩
          else
            let dec1 := if b.eosFlag then 0 else s.curBufferOffsetDec
            let endEvs := endEvt cb b.pContext b.eosFlag
            match rest with
            | b2 :: rest2 =>
              let s1 : DecodeState :=
                { bufferList := b2 :: rest2, curBufferOffset := b2.PlayBegin,
                  curBufferOffsetDec := dec1, decodeCache := cache1 }
              let r := decodeLoop decode nCh cb toDecode fuel s1 (decoded + endRead)
              ⟨r.state, r.decoded, endRead + r.resetOffset, startEvs ++ endEvs ++ r.events⟩
            | [] =>
              let cache2 := zeroAt cache1 (decoded * nCh + endRead) (decoding - endRead)
              let s1 : DecodeState :=
                { bufferList := [], curBufferOffset := s.curBufferOffset,
                  curBufferOffsetDec := dec1, decodeCache := cache2 }
              let r := decodeLoop decode nCh cb toDecode fuel s1 (decoded + endRead)
              ⟨r.state, r.decoded, endRead + r.resetOffset, startEvs ++ endEvs ++ r.events⟩
        else
          let s1 : DecodeState := { s with decodeCache := cache1 }
          let r := decodeLoop decode nCh cb toDecode fuel s1 (decoded + endRead)
          ⟨r.state, r.decoded, r.resetOffset, startEvs ++ r.events⟩
      else ⟨s, decoded, 0, []⟩

/-- `FAudio_INTERNAL_DecodeBuffers` (lines 80–204).  `pad` is
`EXTRA_DECODE_PADDING`, a constant from `FAudio_internal.h` (not under
`src/`), kept as a parameter.  The function pads the request, runs the
decode loop, and returns the produced count minus the padding (a
`uint64` subtraction in C, hence the explicit wrap) together with the
`resetOffset` return value and the emitted callback events. -/
def decodeBuffers (decode : DecodeFn) (nCh : Nat) (cb : Option Callbacks)
    (pad : Nat) (fuel : Nat) (s : DecodeState) (toDecode : Nat) :
    DecodeResult × Nat :=
  let r := decodeLoop decode nCh cb (toDecode + pad) fuel s 0
  (r, (r.decoded + 2 ^ 64 - pad % 2 ^ 64) % 2 ^ 64)

/-! ### The event trace of a looping single-buffer queue -/

/-- The callback events a single queued buffer emits from position `off`
with `c` loop rewinds still to run: a possible start-of-buffer event,
then one loop-end per rewind (restarting from `LoopBegin`), then the
finalisation events. -/
def loopEvents (cb : Option Callbacks) (pb lb ctx : Nat) (eos : Bool) :
    Nat → Nat → List Event
  | 0, off => startEvt cb pb ctx off ++ endEvt cb ctx eos
  | c + 1, off =>
    startEvt cb pb ctx off ++ loopEndEvt cb ctx ++
      loopEvents cb pb lb ctx eos c lb

/-- Total samples a single queued buffer still yields from position `off`
with `c` loop rewinds to run, loop window end `ll` and play window end
`pl` (the code treats `LoopLength` and `PlayLength` as absolute end
offsets). -/
def loopTotal (pl lb ll : Nat) : Nat → Nat → Nat
  | 0, off => pl - off
  | c + 1, off => (ll - off) + loopTotal pl lb ll c lb

/-! ### Counting callback events -/

/-- Number of `OnLoopEnd` firings in an event trace. -/
def countLoopEnd (l : List Event) : Nat :=
  (l.filter fun e => match e with | .loopEnd _ => true | _ => false).length

/-- Number of `OnBufferEnd` firings in an event trace. -/
def countBufferEnd (l : List Event) : Nat :=
  (l.filter fun e => match e with | .bufferEnd _ => true | _ => false).length

/-- Number of `OnBufferStart` firings in an event trace. -/
def countBufferStart (l : List Event) : Nat :=
  (l.filter fun e => match e with | .bufferStart _ => true | _ => false).length

/-! ### The built-in uncompressed PCM decoders -/

/-- Reinterpret a byte as C `int8_t`. -/
def toSigned8 (x : Nat) : Int :=
  if x % 256 < 128 then (x % 256 : Nat) else (x % 256 : Nat) - 256

/-- Reinterpret a 16-bit value as C `int16_t` (two's complement). -/
def toSigned16 (x : Nat) : Int :=
  if x % 65536 < 32768 then (x % 65536 : Nat) else (x % 65536 : Nat) - 65536

/-- Read one byte of a buffer payload (out-of-range reads yield 0; the C
code would over-read, see the header comment). -/
def readU8 (data : List Nat) (i : Nat) : Nat := data.getD i 0

/-- Read a little-endian `int16_t` at byte offset `i`. -/
def readI16 (data : List Nat) (i : Nat) : Int :=
  toSigned16 (readU8 data i + 256 * readU8 data (i + 1))

/-- `FAudio_INTERNAL_DecodeMonoPCM8` (lines 605–620): sample `i` is the
signed byte at `PlayBegin + curOffset + i`, shifted left by 8. -/
def FAudio_INTERNAL_DecodeMonoPCM8 : DecodeFn := fun buffer curOffset samples =>
  (List.range samples).map fun i =>
    toSigned8 (readU8 buffer.pAudioData (buffer.PlayBegin + curOffset + i)) * 256

/-- `FAudio_INTERNAL_DecodeStereoPCM8` (lines 622–638): the read pointer
starts at byte `(PlayBegin + curOffset) * 2` and the two channels of each
frame are consecutive signed bytes, each shifted left by 8. -/
def FAudio_INTERNAL_DecodeStereoPCM8 : DecodeFn := fun buffer curOffset samples =>
  (List.range (samples * 2)).map fun j =>
    toSigned8 (readU8 buffer.pAudioData
      ((buffer.PlayBegin + curOffset) * 2 + j)) * 256

/-- `FAudio_INTERNAL_DecodeMonoPCM16` (lines 642–656): `memcpy` of
`samples` little-endian `int16_t` values starting at `int16` index
`PlayBegin + curOffset`. -/
def FAudio_INTERNAL_DecodeMonoPCM16 : DecodeFn := fun buffer curOffset samples =>
  (List.range samples).map fun i =>
    readI16 buffer.pAudioData (2 * (buffer.PlayBegin + curOffset + i))

/-- `FAudio_INTERNAL_DecodeStereoPCM16` (lines 658–672): `memcpy` of
`samples * 2` little-endian `int16_t` values starting at `int16` index
`(PlayBegin + curOffset) * 2`. -/
def FAudio_INTERNAL_DecodeStereoPCM16 : DecodeFn := fun buffer curOffset samples =>
  (List.range (samples * 2)).map fun j =>
    readI16 buffer.pAudioData (2 * ((buffer.PlayBegin + curOffset) * 2 + j))

/-! ### The built-in MSADPCM decoders -/

/-- C integer clamp (`FAudio_clamp` applied at `int32_t`). -/
def clampInt (val lo hi : Int) : Int :=
  if val < lo then lo else if val > hi then hi else val

/-- Reinterpret an `Int` as C `int16_t` (two's-complement truncating
cast). -/
def toInt16 (x : Int) : Int :=
  if x % 65536 < 32768 then x % 65536 else x % 65536 - 65536

/-- `AdaptionTable` of `FAudio_INTERNAL_ParseNibble`. -/
def AdaptionTable : List Int :=
  [230, 230, 230, 230, 307, 409, 512, 614, 768, 614, 512, 409, 307, 230, 230, 230]

/-- `AdaptCoeff_1` of `FAudio_INTERNAL_ParseNibble`. -/
def AdaptCoeff_1 : List Int := [256, 512, 0, 192, 240, 460, 392]

/-- `AdaptCoeff_2` of `FAudio_INTERNAL_ParseNibble`. -/
def AdaptCoeff_2 : List Int := [0, -256, 0, 64, 0, -208, -232]

/-- The per-channel MSADPCM predictor state threaded through
`FAudio_INTERNAL_ParseNibble` (`delta`, `sample1`, `sample2`). -/
structure AdpcmState where
  delta : Int
  sample1 : Int
  sample2 : Int
  deriving DecidableEq, Repr

/-- `FAudio_INTERNAL_ParseNibble` (lines 676–722): sign-extend the
4-bit nibble, predict from the two previous samples with the
coefficient pair selected by `predictor` (C division truncates toward
zero, hence `Int.tdiv`), add the scaled nibble, clamp to `int16` range,
then update `delta` through the adaption table with an `int16_t`
truncating cast and a floor of 16. -/
def FAudio_INTERNAL_ParseNibble (nibble : Nat) (predictor : Nat)
    (st : AdpcmState) : Int × AdpcmState :=
  let signedNibble : Int :=
    if nibble % 16 ≥ 8 then (nibble % 16 : Nat) - 16 else (nibble % 16 : Nat)
  let sampleInt : Int :=
    Int.tdiv (st.sample1 * AdaptCoeff_1.getD predictor 0 +
      st.sample2 * AdaptCoeff_2.getD predictor 0) 256
  let sample := clampInt (sampleInt + signedNibble * st.delta) (-32768) 32767
  let delta1 := toInt16 (Int.tdiv (AdaptionTable.getD (nibble % 16) 0 * st.delta) 256)
  let delta2 := if delta1 < 16 then 16 else delta1
  (sample, ⟨delta2, sample, st.sample1⟩)

/-- `FAudio_INTERNAL_DecodeMonoMSADPCMBlock` (lines 764–810): read the
7-byte mono preamble at byte offset `p` (predictor, `delta`, `sample1`,
`sample2`), emit `sample1, sample2`, then decode `align + 15` nibble
bytes, high nibble first; returns the decoded block and the advanced
read pointer. -/
def FAudio_INTERNAL_DecodeMonoMSADPCMBlock (data : List Nat) (p : Nat)
    (align : Nat) : List Int × Nat :=
  let predictor := readU8 data p
  let st0 : AdpcmState :=
    ⟨readI16 data (p + 1), readI16 data (p + 3), readI16 data (p + 5)⟩
  let p1 := p + 7
  let r := (List.range (align + 15)).foldl
    (fun (acc : List Int × AdpcmState) i =>
      let byte := readU8 data (p1 + i)
      let r1 := FAudio_INTERNAL_ParseNibble (byte / 16) predictor acc.2
      let r2 := FAudio_INTERNAL_ParseNibble (byte % 16) predictor r1.2
      (acc.1 ++ [r1.1, r2.1], r2.2))
    ([st0.sample1, st0.sample2], st0)
  (r.1, p1 + (align + 15))

/-- `FAudio_INTERNAL_DecodeStereoMSADPCMBlock` (lines 812–868): read the
14-byte stereo preamble at byte offset `p`, emit
`l_sample2, r_sample2, l_sample1, r_sample1`, then decode
`(align + 15) * 2` nibble bytes, high nibble to the left channel and low
nibble to the right. -/
def FAudio_INTERNAL_DecodeStereoMSADPCMBlock (data : List Nat) (p : Nat)
    (align : Nat) : List Int × Nat :=
  let lPredictor := readU8 data p
  let rPredictor := readU8 data (p + 1)
  let stl0 : AdpcmState :=
    ⟨readI16 data (p + 2), readI16 data (p + 6), readI16 data (p + 10)⟩
  let str0 : AdpcmState :=
    ⟨readI16 data (p + 4), readI16 data (p + 8), readI16 data (p + 12)⟩
  let p1 := p + 14
  let r := (List.range ((align + 15) * 2)).foldl
    (fun (acc : List Int × AdpcmState × AdpcmState) i =>
      let byte := readU8 data (p1 + i)
      let rl := FAudio_INTERNAL_ParseNibble (byte / 16) lPredictor acc.2.1
      let rr := FAudio_INTERNAL_ParseNibble (byte % 16) rPredictor acc.2.2
      (acc.1 ++ [rl.1, rr.1], rl.2, rr.2))
    ([stl0.sample2, str0.sample2, stl0.sample1, str0.sample1], stl0, str0)
  (r.1, p1 + (align + 15) * 2)

/-- The `while (samples > 0)` copy loop of
`FAudio_INTERNAL_DecodeMonoMSADPCM` (lines 898–914): decode whole blocks,
copying `min(samples, bsize - midOffset)` samples from block position
`midOffset` (0 after the first block).  Structured on a fuel argument
that the callers instantiate with `samples` (each iteration consumes at
least one sample). -/
def msadpcmLoopMono (data : List Nat) (align : Nat) :
    Nat → Nat → Nat → Nat → List Int
  | 0, _, _, _ => []
  | fuel + 1, samples, mid, p =>
    if samples = 0 then []
    else
      let bsize := (align + 16) * 2
      let copy := min samples (bsize - mid)
      let r := FAudio_INTERNAL_DecodeMonoMSADPCMBlock data p align
      ((r.1.drop mid).take copy) ++
        msadpcmLoopMono data align fuel (samples - copy) 0 r.2

/-- The `while (samples > 0)` copy loop of
`FAudio_INTERNAL_DecodeStereoMSADPCM` (lines 944–961): as in the mono
loop but copying `copy * 2` interleaved values from block element
`midOffset * 2`. -/
def msadpcmLoopStereo (data : List Nat) (align : Nat) :
    Nat → Nat → Nat → Nat → List Int
  | 0, _, _, _ => []
  | fuel + 1, samples, mid, p =>
    if samples = 0 then []
    else
      let bsize := (align + 16) * 2
      let copy := min samples (bsize - mid)
      let r := FAudio_INTERNAL_DecodeStereoMSADPCMBlock data p align
      ((r.1.drop (mid * 2)).take (copy * 2)) ++
        msadpcmLoopStereo data align fuel (samples - copy) 0 r.2

/-- `FAudio_INTERNAL_DecodeMonoMSADPCM` (lines 870–915).  `align` is
`format->nBlockAlign`.  The start block and intra-block offset are
computed from `curOffset` alone: `buf = pAudioData + (curOffset / bsize)
* (align + 22)`, `midOffset = curOffset % bsize` — `PlayBegin` is never
read. -/
def FAudio_INTERNAL_DecodeMonoMSADPCM (align : Nat) : DecodeFn :=
  fun buffer curOffset samples =>
    let bsize := (align + 16) * 2
    msadpcmLoopMono buffer.pAudioData align samples samples
      (curOffset % bsize) ((curOffset / bsize) * (align + 22))

/-- `FAudio_INTERNAL_DecodeStereoMSADPCM` (lines 917–961), the stereo
variant: `buf = pAudioData + (curOffset / bsize) * ((align + 22) * 2)`,
`midOffset = curOffset % bsize`; `PlayBegin` is never read. -/
def FAudio_INTERNAL_DecodeStereoMSADPCM (align : Nat) : DecodeFn :=
  fun buffer curOffset samples =>
    let bsize := (align + 16) * 2
    msadpcmLoopStereo buffer.pAudioData align samples samples
      (curOffset % bsize) ((curOffset / bsize) * ((align + 22) * 2))

/-! ### The fixed-point linear resampler -/

/-- The mono loop of `FAudio_INTERNAL_ResamplePCM` (lines 248–274):
for each output sample, lerp between the current and next decoded
sample with the fractional phase `cur`, normalise by 32768, then add
the step into `cur` (a `uint64`), advance the read pointer by the
integer part and keep only the fraction.  `base` is the read index into
the decode cache. -/
def resampleMono (decodeCache : List Int) (step : Nat) :
    Nat → Nat → Nat → List ℚ
  | 0, _, _ => []
  | n + 1, base, cur =>
    ((decodeCache.getD base 0 : ℚ) +
      ((decodeCache.getD (base + 1) 0 : ℚ) - (decodeCache.getD base 0 : ℚ)) *
        fixedToQ cur) / 32768 ::
    resampleMono decodeCache step n
      (base + ((cur + step) % 2 ^ 64) / 2 ^ 32) (((cur + step) % 2 ^ 64) % 2 ^ 32)

/-- The unrolled stereo loop of `FAudio_INTERNAL_ResamplePCM`
(lines 215–247): two interleaved channels per frame, the read pointer
advancing by twice the integer part of the accumulated phase. -/
def resampleStereo (decodeCache : List Int) (step : Nat) :
    Nat → Nat → Nat → List ℚ
  | 0, _, _ => []
  | n + 1, base, cur =>
    ((decodeCache.getD base 0 : ℚ) +
      ((decodeCache.getD (base + 2) 0 : ℚ) - (decodeCache.getD base 0 : ℚ)) *
        fixedToQ cur) / 32768 ::
    ((decodeCache.getD (base + 1) 0 : ℚ) +
      ((decodeCache.getD (base + 3) 0 : ℚ) - (decodeCache.getD (base + 1) 0 : ℚ)) *
        fixedToQ cur) / 32768 ::
    resampleStereo decodeCache step n
      (base + 2 * (((cur + step) % 2 ^ 64) / 2 ^ 32))
      (((cur + step) % 2 ^ 64) % 2 ^ 32)

/-- `FAudio_INTERNAL_ResamplePCM` (lines 206–275): dispatch on the
channel count (`nChannels == 2` gets the unrolled stereo loop, anything
else the mono loop), starting from the fractional part of
`resampleOffset`; returns the float output together with the updated
`resampleOffset` (incremented by `step` per output frame, wrapping as a
`uint64`). -/
def FAudio_INTERNAL_ResamplePCM (nCh : Nat) (decodeCache : List Int)
    (step resampleOffset toResample : Nat) : List ℚ × Nat :=
  (if nCh = 2 then
    resampleStereo decodeCache step toResample 0 (resampleOffset % 2 ^ 32)
  else
    resampleMono decodeCache step toResample 0 (resampleOffset % 2 ^ 32),
  (resampleOffset + toResample * step) % 2 ^ 64)

/-- The `resampleStep == FIXED_ONE` fast path of
`FAudio_INTERNAL_MixSource` (lines 351–360): no interpolation, just
int16 → float normalisation of `toResample * nChannels` consecutive
decoded values. -/
def fastPathConvert (decodeCache : List Int) (count : Nat) : List ℚ :=
  (List.range count).map fun i => (decodeCache.getD i 0 : ℚ) / 32768

/-- Plain int16 → float normalisation of `n` consecutive decode-cache
values starting at `base` (the common form both resample paths reduce
to when the step is exactly 1.0 and the phase is zero). -/
def pureConvert (decodeCache : List Int) : Nat → Nat → List ℚ
  | 0, _ => []
  | n + 1, base =>
    (decodeCache.getD base 0 : ℚ) / 32768 :: pureConvert decodeCache n (base + 1)

/-! ### The cached resample step -/

/-- The slice of source-voice state involved in the resample-step
recomputation of `FAudio_INTERNAL_MixSource` (lines 292–308):
the requested ratio `freqRatio`, the cached ratio `resampleFreqRatio`
and step `resampleStep`, the source format rate, and the input rates of
the send destinations (`sendRates`, one per send, in order) with the
master rate used when there are no sends. -/
structure SourceVoiceRate where
  freqRatio : ℚ
  resampleFreqRatio : ℚ
  resampleStep : Nat
  nSamplesPerSec : Nat
  sendRates : List Nat
  masterRate : Nat
  deriving DecidableEq, Repr

/-- The destination rate the step computation uses (lines 295–300): the
first send's output voice input rate, or the master's when the voice has
no sends. -/
def outputRate (v : SourceVoiceRate) : Nat := v.sendRates.headD v.masterRate

/-- The step computation of lines 301–306:
`DOUBLE_TO_FIXED(freqRatio * nSamplesPerSec / outputRate)`. -/
def computeResampleStep (ratio : ℚ) (srcRate outRate : Nat) : Nat :=
  DOUBLE_TO_FIXED (ratio * (srcRate : ℚ) / (outRate : ℚ))

/-- The spec's formula (§4.2): `step = round(rateRatio * sourceRate /
destRate * 2^32)` in Q32.32 with round-half-up (Mathlib's `round` is
round-half-up).  Stated separately from `computeResampleStep` so the two
can be compared. -/
def specResampleStep (ratio : ℚ) (srcRate dstRate : Nat) : Nat :=
  (round (ratio * (srcRate : ℚ) / (dstRate : ℚ) * 2 ^ 32)).toNat

/-- The `if (resampleFreqRatio != freqRatio)` recomputation guard of
lines 292–308. -/
def updateResampleStep (v : SourceVoiceRate) : SourceVoiceRate :=
  if v.resampleFreqRatio ≠ v.freqRatio then
    { v with
      resampleStep :=
        computeResampleStep v.freqRatio v.nSamplesPerSec (outputRate v),
      resampleFreqRatio := v.freqRatio }
  else v

/-! ### Send distribution and the submix pipeline -/

/-- A send destination as the mix pipelines see it (lines 401–413 /
493–505): the destination's channel count and input rate, the
destination buffer (`master.output` or `mix.inputCache`) and the
send's coefficient matrix `sendCoefficients[i]`, laid out
`[destChannel * sourceChannels + sourceChannel]`. -/
structure SendTarget where
  oChan : Nat
  rate : Nat
  stream : List ℚ
  coef : List ℚ
  deriving DecidableEq, Repr

/-- One accumulate-and-clamp store of the distribution loops:
`stream[idx] = FAudio_clamp(stream[idx] + contrib, -max, max)`. -/
def mixAccumulate (maxVol : ℚ) (stream : List ℚ) (idx : Nat)
    (contrib : ℚ) : List ℚ :=
  stream.set idx (FAudio_clamp (stream.getD idx 0 + contrib) (-maxVol) maxVol)

/-- The triple distribution loop of `FAudio_INTERNAL_MixSource`
(lines 415–434) for one send: for every frame `j`, destination channel
`co` and source channel `ci`, accumulate
`cache[j*nCh+ci] * channelVolume[ci] * volume * coef[co*nCh+ci]` into
`stream[j*oChan+co]`, clamping after every accumulation. -/
def mixSourceSendInto (maxVol : ℚ) (mixed oChan nCh : Nat) (cache : List ℚ)
    (chanVol : List ℚ) (vol : ℚ) (coef : List ℚ) (stream : List ℚ) :
    List ℚ :=
  (List.range mixed).foldl (fun st j =>
    (List.range oChan).foldl (fun st co =>
      (List.range nCh).foldl (fun st ci =>
        mixAccumulate maxVol st (j * oChan + co)
          (cache.getD (j * nCh + ci) 0 * chanVol.getD ci 0 * vol *
            coef.getD (co * nCh + ci) 0)) st) st) stream

/-- The triple distribution loop of `FAudio_INTERNAL_MixSubmix`
(lines 507–524) for one send: as for a source but without the
per-channel/overall gain factors (those were already applied). -/
def mixSubmixSendInto (maxVol : ℚ) (frames oChan nCh : Nat)
    (cache : List ℚ) (coef : List ℚ) (stream : List ℚ) : List ℚ :=
  (List.range frames).foldl (fun st j =>
    (List.range oChan).foldl (fun st co =>
      (List.range nCh).foldl (fun st ci =>
        mixAccumulate maxVol st (j * oChan + co)
          (cache.getD (j * nCh + ci) 0 * coef.getD (co * nCh + ci) 0)) st) st)
    stream

/-- `FAudio_zero(buf, sizeof(float) * n)` on a float buffer: the first
`n` entries become 0, anything beyond is untouched. -/
def zeroFloats (l : List ℚ) (n : Nat) : List ℚ :=
  List.replicate (min n l.length) 0 ++ l.drop n

/-- The submix-voice state touched by `FAudio_INTERNAL_MixSubmix`:
input accumulator (`mix.inputCache`, `mix.inputSamples` floats), channel
counts, the output scratch buffer and per-channel/overall gain. -/
structure SubmixVoice where
  inputChannels : Nat
  inputSamples : Nat
  inputCache : List ℚ
  outputSamples : Nat
  outputResampleCache : List ℚ
  channelVolume : List ℚ
  volume : ℚ
  deriving DecidableEq, Repr

/-- The gain pass of `FAudio_INTERNAL_MixSubmix` (lines 471–487):
multiply the first `frames * inputChannels` resampled values by
`channelVolume[ci] * volume` (applied before distribution, unlike the
source pipeline). -/
def applySubmixGains (nCh frames : Nat) (chanVol : List ℚ) (vol : ℚ)
    (orc : List ℚ) : List ℚ :=
  (List.range frames).foldl (fun st i =>
    (List.range nCh).foldl (fun st ci =>
      st.set (i * nCh + ci) (st.getD (i * nCh + ci) 0 * chanVol.getD ci 0 * vol))
      st) orc

/-- `FAudio_INTERNAL_MixSubmix` (lines 448–532).  `resampleFn` is the
external platform resample capability
(`(input, inputSamples, outputCapacity) → (output, resampledCount)`,
spec §6).  With no sends it skips straight to the end-of-block reset;
otherwise it resamples, applies gains pre-distribution, distributes to
every send with the additive clamp, and in every case zeroes the first
`inputSamples` floats of the input accumulator. -/
def FAudio_INTERNAL_MixSubmix (maxVol : ℚ)
    (resampleFn : List ℚ → Nat → Nat → List ℚ × Nat)
    (v : SubmixVoice) (targets : List SendTarget) :
    SubmixVoice × List SendTarget :=
  if targets.length = 0 then
    ({ v with inputCache := zeroFloats v.inputCache v.inputSamples }, targets)
  else
    let r := resampleFn v.inputCache v.inputSamples v.outputSamples
    let frames := r.2 / v.inputChannels
    let orc := applySubmixGains v.inputChannels frames v.channelVolume v.volume r.1
    let targets1 := targets.map fun t =>
      { t with stream := (mixSubmixSendInto maxVol frames t.oChan
          v.inputChannels orc t.coef t.stream) }
    ({ v with inputCache := zeroFloats v.inputCache v.inputSamples,
              outputResampleCache := orc }, targets1)

/-! ### The source mix pipeline -/

/-- The source-voice state `FAudio_INTERNAL_MixSource` touches. -/
structure SourceVoice where
  freqRatio : ℚ
  resampleFreqRatio : ℚ
  resampleStep : Nat
  resampleOffset : Nat
  nChannels : Nat
  nSamplesPerSec : Nat
  masterRate : Nat
  curBufferOffset : Nat
  curBufferOffsetDec : Nat
  bufferList : List FAudioBuffer
  decodeCache : List Int
  outputSamples : Nat
  decodeSamples : Nat
  channelVolume : List ℚ
  volume : ℚ
  cb : Option Callbacks
  deriving DecidableEq, Repr

/-- The resample-step recomputation at the top of
`FAudio_INTERNAL_MixSource` (lines 292–308), using the first send's
destination rate, or the master rate when the voice has no sends. -/
def mixSourceStepUpdate (v : SourceVoice) (targets : List SendTarget) :
    SourceVoice :=
  if v.resampleFreqRatio ≠ v.freqRatio then
    { v with
      resampleStep := computeResampleStep v.freqRatio v.nSamplesPerSec
        ((targets.map SendTarget.rate).headD v.masterRate),
      resampleFreqRatio := v.freqRatio }
  else v

/-- The `while (mixed < outputSamples && bufferList != NULL)` loop of
`FAudio_INTERNAL_MixSource` (lines 328–386), with fuel: compute the
source-rate request from the remaining output quota (fixed-point,
rounded up over the current fractional offset), decode, derive the
resampled count from what was actually decoded (capped by the remaining
quota), convert via the fast path when the step is exactly 1.0 or the
linear resampler otherwise, then update the play position using the
decode step's `resetOffset` correction (zeroing it when the queue
emptied).  Returns the voice, the produced frame count, the float
resample cache and the callback events. -/
def mixLoop (decode : DecodeFn) (pad dfuel : Nat) :
    Nat → SourceVoice → Nat → List ℚ →
      SourceVoice × Nat × List ℚ × List Event
  | 0, v, mixed, rc => (v, mixed, rc, [])
  | fuel + 1, v, mixed, rc =>
    if mixed < v.outputSamples ∧ v.bufferList ≠ [] then
      let x1 := ((v.outputSamples - mixed) * v.resampleStep) % 2 ^ 64
      let x2 := (x1 + v.curBufferOffsetDec + FIXED_FRACTION_MASK) % 2 ^ 64
      let toDecode := x2 / 2 ^ 32
      let dr := decodeBuffers decode v.nChannels v.cb pad dfuel
        ⟨v.bufferList, v.curBufferOffset, v.curBufferOffsetDec, v.decodeCache⟩
        toDecode
      let t1 := (dr.2 * 2 ^ 32) % 2 ^ 64
      let t2 := (t1 + 2 ^ 64 - dr.1.state.curBufferOffsetDec % 2 ^ 64) % 2 ^ 64
      let toResample := min (t2 / v.resampleStep) (v.outputSamples - mixed)
      let out :=
        if v.resampleStep = FIXED_ONE then
          (fastPathConvert dr.1.state.decodeCache (toResample * v.nChannels),
            v.resampleOffset)
        else
          FAudio_INTERNAL_ResamplePCM v.nChannels dr.1.state.decodeCache
            v.resampleStep v.resampleOffset toResample
      let od :=
        if dr.1.state.bufferList ≠ [] then
          let d1 := (dr.1.state.curBufferOffsetDec +
            toResample * v.resampleStep) % 2 ^ 64
          let o1 := (dr.1.state.curBufferOffset + d1 / 2 ^ 32) % 2 ^ 32
          (u32sub o1 dr.1.resetOffset, d1 % 2 ^ 32)
        else (0, 0)
      let v1 : SourceVoice :=
        { v with
          bufferList := dr.1.state.bufferList,
          curBufferOffset := od.1,
          curBufferOffsetDec := od.2,
          decodeCache := dr.1.state.decodeCache,
          resampleOffset := out.2 }
      let r := mixLoop decode pad dfuel fuel v1 (mixed + toResample)
        (rc ++ out.1)
      (r.1, r.2.1, r.2.2.1, dr.1.events ++ r.2.2.2)
    else (v, mixed, rc, [])

/-- `FAudio_INTERNAL_MixSource` (lines 277–446): recompute the resample
step if the ratio changed, fire `OnVoiceProcessingPassStart`
(advertising `decodeSamples * sizeof(int16_t)` bytes), **return
immediately if the buffer queue is empty** (line 321–324 — skipping the
end label), otherwise run the decode/resample loop, distribute to every
send with the additive clamp when samples were produced and sends
exist, and fire `OnVoiceProcessingPassEnd` at the end label. -/
def FAudio_INTERNAL_MixSource (decode : DecodeFn) (pad : Nat) (maxVol : ℚ)
    (dfuel lfuel : Nat) (v : SourceVoice) (targets : List SendTarget) :
    SourceVoice × List SendTarget × List Event :=
  let v0 := mixSourceStepUpdate v targets
  let evStart : List Event :=
    if (v0.cb.map Callbacks.onPassStart).getD false = true then
      [Event.passStart (v0.decodeSamples * 2)]
    else []
  if v0.bufferList = [] then (v0, targets, evStart)
  else
    let r := mixLoop decode pad dfuel lfuel v0 0 []
    let evEnd : List Event :=
      if (r.1.cb.map Callbacks.onPassEnd).getD false = true then
        [Event.passEnd]
      else []
    if r.2.1 = 0 then (r.1, targets, evStart ++ r.2.2.2 ++ evEnd)
    else if targets.length = 0 then (r.1, targets, evStart ++ r.2.2.2 ++ evEnd)
    else
      let targets1 := targets.map fun t =>
        { t with stream := (mixSourceSendInto maxVol r.2.1 t.oChan
            r.1.nChannels r.2.2.1 r.1.channelVolume r.1.volume t.coef
            t.stream) }
      (r.1, targets1, evStart ++ r.2.2.2 ++ evEnd)

/-- Number of `OnVoiceProcessingPassEnd` firings in an event trace. -/
def countPassEnd (l : List Event) : Nat :=
  (l.filter fun e => match e with | .passEnd => true | _ => false).length

/-! ### The engine update loop -/

/-- The processing steps `FAudio_INTERNAL_UpdateEngine` performs, as a
trace: engine `OnProcessingPassStart` callbacks, source mixes, submix
mixes (tagged with the stage loop index that emitted them), engine
`OnProcessingPassEnd` callbacks. -/
inductive EngineEv where
  | procStart (i : Nat)
  | mixSrc (i : Nat)
  | mixSub (stage i : Nat)
  | procEnd (i : Nat)
  deriving DecidableEq, Repr

/-- An entry of the engine callback list (`audio->callbacks`):
which of the two pass callbacks are non-NULL, plus an identifier. -/
structure EngineCallback where
  hasStart : Bool
  hasEnd : Bool
  id : Nat
  deriving DecidableEq, Repr

/-- An entry of the source-voice registry (`audio->sources`). -/
structure SourceEntry where
  active : Bool
  id : Nat
  deriving DecidableEq, Repr

/-- An entry of the submix-voice registry (`audio->submixes`), carrying
its `mix.processingStage`. -/
structure SubmixEntry where
  stage : Nat
  id : Nat
  deriving DecidableEq, Repr

/-- The engine state `FAudio_INTERNAL_UpdateEngine` traverses. -/
structure Engine where
  active : Bool
  callbacks : List EngineCallback
  sources : List SourceEntry
  submixes : List SubmixEntry
  submixStages : Nat
  deriving DecidableEq, Repr

/-- The `OnProcessingPassStart` segment (lines 546–557). -/
def engCbStart (a : Engine) : List EngineEv :=
  a.callbacks.filterMap fun c =>
    if c.hasStart then some (.procStart c.id) else none

/-- The source-mixing segment (lines 562–571): every active source, in
registry order. -/
def engSrc (a : Engine) : List EngineEv :=
  a.sources.filterMap fun s =>
    if s.active then some (.mixSrc s.id) else none

/-- The submixes mixed during stage iteration `i` (lines 576–584). -/
def engSubGroup (a : Engine) (i : Nat) : List EngineEv :=
  a.submixes.filterMap fun m =>
    if m.stage = i then some (.mixSub i m.id) else none

/-- The submix-mixing segment (lines 573–585): stages in ascending
order. -/
def engSub (a : Engine) : List EngineEv :=
  (List.range a.submixStages).flatMap (engSubGroup a)

/-- The `OnProcessingPassEnd` segment (lines 589–600). -/
def engCbEnd (a : Engine) : List EngineEv :=
  a.callbacks.filterMap fun c =>
    if c.hasEnd then some (.procEnd c.id) else none

/-- The trace of `FAudio_INTERNAL_UpdateEngine` (lines 534–601): nothing
if inactive; otherwise pass-start callbacks in registration order, every
active source (list order), then for each stage `i` from 0 to
`submixStages - 1` every submix whose `processingStage` equals `i`, then
pass-end callbacks. -/
def updateEngineTrace (a : Engine) : List EngineEv :=
  if a.active = false then []
  else engCbStart a ++ engSrc a ++ engSub a ++ engCbEnd a

/-- The processing phase of an engine event: pass-start callbacks come
first, then sources, then submixes in stage order, then pass-end
callbacks. -/
def evKey (stages : Nat) : EngineEv → Nat
  | .procStart _ => 0
  | .mixSrc _ => 1
  | .mixSub k _ => 2 + k
  | .procEnd _ => 2 + stages

/-! ### Concrete instances used to witness the claim theorems -/

/-- A concrete decode capability for witnesses: sample `i` of the request
is `curOffset + i` (so the produced values record the read position). -/
def wDecode : DecodeFn := fun _ off n => (List.range n).map (fun i => (off + i : Int))

/-- A callback table with every notification registered. -/
def wCbs : Callbacks := ⟨true, true, true, true, true, true⟩

/-- A looping buffer: play window ending at 6, loop window `[2, 4)`,
loop counter 2. -/
def wBufC1 : FAudioBuffer :=
  { eosFlag := false, pAudioData := [], PlayBegin := 1, PlayLength := 6,
    LoopBegin := 2, LoopLength := 4, LoopCount := 2, pContext := 77 }

/-- A looping buffer whose loop start coincides with its play start. -/
def wBufC8 : FAudioBuffer :=
  { eosFlag := false, pAudioData := [], PlayBegin := 0, PlayLength := 3,
    LoopBegin := 0, LoopLength := 2, LoopCount := 1, pContext := 5 }

/-- A fully configured source voice with registered callbacks whose
buffer queue is empty. -/
def wVoiceC7 : SourceVoice :=
  { freqRatio := 1, resampleFreqRatio := 1, resampleStep := FIXED_ONE,
    resampleOffset := 0, nChannels := 1, nSamplesPerSec := 44100,
    masterRate := 44100, curBufferOffset := 0, curBufferOffsetDec := 0,
    bufferList := [], decodeCache := [], outputSamples := 4,
    decodeSamples := 16, channelVolume := [1], volume := 1,
    cb := some wCbs }

/-- A source voice slice whose requested ratio (2) differs from the
cached one (1): rate 48000 into a 44100 destination. -/
def wRateVoice : SourceVoiceRate :=
  { freqRatio := 2, resampleFreqRatio := 1, resampleStep := 0,
    nSamplesPerSec := 48000, sendRates := [44100], masterRate := 22050 }

/-- A non-looping stereo 16-bit buffer holding the two frames
`(1, 2), (3, 4)` as little-endian bytes; it can satisfy only 2 of a
4-frame request. -/
def wBufC2 : FAudioBuffer :=
  { eosFlag := false, pAudioData := [1, 0, 2, 0, 3, 0, 4, 0], PlayBegin := 0,
    PlayLength := 2, LoopBegin := 0, LoopLength := 0, LoopCount := 0,
    pContext := 3 }

/-! ### Unfolding lemmas for the decode loop -/

theorem decodeLoop_nil (decode : DecodeFn) (nCh : Nat) (cb : Option Callbacks)
    (toDecode fuel : Nat) (off dec : Nat) (cache : List Int) (decoded : Nat) :
    decodeLoop decode nCh cb toDecode fuel ⟨[], off, dec, cache⟩ decoded =
      ⟨⟨[], off, dec, cache⟩, decoded, 0, []⟩ := by
  cases fuel with
  | zero => rfl
  | succ f => simp only [decodeLoop]

theorem decodeLoop_done (decode : DecodeFn) (nCh : Nat) (cb : Option Callbacks)
    (toDecode fuel : Nat) (s : DecodeState) (decoded : Nat)
    (h : ¬ decoded < toDecode) :
    decodeLoop decode nCh cb toDecode fuel s decoded = ⟨s, decoded, 0, []⟩ := by
  cases fuel with
  | zero => rfl
  | succ f =>
    match hs : s.bufferList with
    | [] => simp only [decodeLoop, hs]
    | b :: rest => simp only [decodeLoop, hs, if_neg h]

/-- Unfolding the decode loop at a loop-rewind boundary: the iteration
reaches the loop window end with samples still requested and a live loop
counter below the infinite sentinel. -/
theorem decodeLoop_loop_step (decode : DecodeFn) (nCh : Nat)
    (cb : Option Callbacks) (toDecode fuel : Nat) (b : FAudioBuffer)
    (rest : List FAudioBuffer) (off dec : Nat) (cache : List Int)
    (decoded : Nat)
    (hc : 0 < b.LoopCount) (hc255 : b.LoopCount < 0xFF)
    (hll : 0 < b.LoopLength) (hoff : off ≤ b.LoopLength)
    (h32 : b.LoopLength < 2 ^ 32)
    (hrem : b.LoopLength - off < toDecode - decoded) :
    decodeLoop decode nCh cb toDecode (fuel + 1)
      ⟨b :: rest, off, dec, cache⟩ decoded =
    (let endRead := b.LoopLength - off
     let r := decodeLoop decode nCh cb toDecode fuel
       ⟨{ b with LoopCount := b.LoopCount - 1 } :: rest, b.LoopBegin, dec,
         writeAt cache (decoded * nCh) (decode b off endRead)⟩
       (decoded + endRead)
     ⟨r.state, r.decoded, endRead + r.resetOffset,
       startEvt cb b.PlayBegin b.pContext off ++ loopEndEvt cb b.pContext
         ++ r.events⟩) := by
  have hd : decoded < toDecode := by omega
  simp only [decodeLoop, if_pos hd, if_pos (And.intro hc hll),
    u32sub_of_le hoff h32, if_pos hc, if_pos hc255]
  have hmin : min (b.LoopLength - off) (toDecode - decoded) =
      b.LoopLength - off := by omega
  simp only [hmin, if_pos hrem]

/-- Unfolding the decode loop at a buffer finalisation on a single-buffer
queue: the play window end is reached with samples still requested, the
loop counter is zero, and there is no next buffer, so the scratch tail is
zero-filled. -/
theorem decodeLoop_final_step (decode : DecodeFn) (nCh : Nat)
    (cb : Option Callbacks) (toDecode fuel : Nat) (b : FAudioBuffer)
    (off dec : Nat) (cache : List Int) (decoded : Nat)
    (hc : b.LoopCount = 0) (hoff : off ≤ b.PlayLength)
    (h32 : b.PlayLength < 2 ^ 32)
    (hrem : b.PlayLength - off < toDecode - decoded) :
    decodeLoop decode nCh cb toDecode (fuel + 1)
      ⟨[b], off, dec, cache⟩ decoded =
    (let endRead := b.PlayLength - off
     let cache1 := writeAt cache (decoded * nCh) (decode b off endRead)
     let r := decodeLoop decode nCh cb toDecode fuel
       ⟨[], off, if b.eosFlag then 0 else dec,
         zeroAt cache1 (decoded * nCh + endRead)
           (toDecode - decoded - endRead)⟩
       (decoded + endRead)
     ⟨r.state, r.decoded, endRead + r.resetOffset,
       startEvt cb b.PlayBegin b.pContext off ++ endEvt cb b.pContext b.eosFlag
         ++ r.events⟩) := by
  have hd : decoded < toDecode := by omega
  have hcond : ¬ (b.LoopCount > 0 ∧ b.LoopLength > 0) := by omega
  simp only [decodeLoop, if_pos hd, if_neg hcond, u32sub_of_le hoff h32,
    if_neg (by omega : ¬ b.LoopCount > 0)]
  have hmin : min (b.PlayLength - off) (toDecode - decoded) =
      b.PlayLength - off := by omega
  simp only [hmin, if_pos hrem]

/-- Unfolding the decode loop at a mid-buffer stop: the remaining request
fits before the iteration end, so the iteration decodes it all and the
next iteration exits the loop. -/
theorem decodeLoop_mid_step (decode : DecodeFn) (nCh : Nat)
    (cb : Option Callbacks) (toDecode fuel : Nat) (b : FAudioBuffer)
    (rest : List FAudioBuffer) (off dec : Nat) (cache : List Int)
    (decoded : Nat) (endv : Nat)
    (hd : decoded < toDecode)
    (hendv : (if b.LoopCount > 0 ∧ b.LoopLength > 0 then b.LoopLength
      else b.PlayLength) = endv)
    (hoff : off ≤ endv) (h32 : endv < 2 ^ 32)
    (hrem : toDecode - decoded ≤ endv - off) :
    decodeLoop decode nCh cb toDecode (fuel + 1)
      ⟨b :: rest, off, dec, cache⟩ decoded =
    (let endRead := toDecode - decoded
     let r := decodeLoop decode nCh cb toDecode fuel
       ⟨b :: rest, off, dec,
         writeAt cache (decoded * nCh) (decode b off endRead)⟩
       (decoded + endRead)
     ⟨r.state, r.decoded, r.resetOffset,
       startEvt cb b.PlayBegin b.pContext off ++ r.events⟩) := by
  simp only [decodeLoop, if_pos hd, hendv, u32sub_of_le hoff h32]
  have hmin : min (endv - off) (toDecode - decoded) = toDecode - decoded := by
    omega
  simp only [hmin, if_neg (by omega : ¬ toDecode - decoded < toDecode - decoded)]


/-- A single-buffer queue with a finite loop counter `c ≤ 254`, a
well-formed loop window and a request strictly exceeding everything the
buffer can still yield runs through exactly `c` loop rewinds and one
finalisation: its callback event trace is `loopEvents c`. -/
theorem decodeLoop_events_single (decode : DecodeFn) (nCh : Nat)
    (cb : Option Callbacks) :
    ∀ (c : Nat) (b : FAudioBuffer) (off dec : Nat) (cache : List Int)
      (decoded toDecode fuel : Nat),
    b.LoopCount = c → c ≤ 254 →
    b.LoopBegin < b.LoopLength → b.LoopBegin ≤ b.PlayLength →
    b.LoopLength < 2 ^ 32 → b.PlayLength < 2 ^ 32 →
    off ≤ (if c = 0 then b.PlayLength else b.LoopLength) →
    decoded + loopTotal b.PlayLength b.LoopBegin b.LoopLength c off < toDecode →
    c + 2 ≤ fuel →
    (decodeLoop decode nCh cb toDecode fuel
      ⟨[b], off, dec, cache⟩ decoded).events =
      loopEvents cb b.PlayBegin b.LoopBegin b.pContext b.eosFlag c off := by
  intro c
  induction c with
  | zero =>
    intro b off dec cache decoded toDecode fuel hc _ hlw hpw h32l h32p hoff
      hreq hfuel
    obtain ⟨f, rfl⟩ : ∃ f, fuel = f + 1 := ⟨fuel - 1, by omega⟩
    simp only [if_pos rfl] at hoff
    have hrem : b.PlayLength - off < toDecode - decoded := by
      simp only [loopTotal] at hreq; omega
    rw [decodeLoop_final_step decode nCh cb toDecode f b off dec cache decoded
      hc hoff h32p hrem]
    simp only [decodeLoop_nil, loopEvents, List.append_nil]
  | succ c ih =>
    intro b off dec cache decoded toDecode fuel hc hle hlw hpw h32l h32p hoff
      hreq hfuel
    obtain ⟨f, rfl⟩ : ∃ f, fuel = f + 1 := ⟨fuel - 1, by omega⟩
    simp only [if_neg (Nat.succ_ne_zero c)] at hoff
    simp only [loopTotal] at hreq
    have hrem : b.LoopLength - off < toDecode - decoded := by omega
    rw [decodeLoop_loop_step decode nCh cb toDecode f b [] off dec cache decoded
      (by omega) (by omega) (by omega) hoff h32l hrem]
    simp only []
    rw [ih { b with LoopCount := b.LoopCount - 1 } b.LoopBegin dec
      (writeAt cache (decoded * nCh) (decode b off (b.LoopLength - off)))
      (decoded + (b.LoopLength - off)) toDecode f
      (by simp; omega) (by omega) (by simpa using hlw) (by simpa using hpw)
      (by simpa using h32l) (by simpa using h32p)
      (by split <;> simp <;> omega) (by simp; omega) (by omega)]
    simp [loopEvents]


theorem countLoopEnd_append (a b : List Event) :
    countLoopEnd (a ++ b) = countLoopEnd a + countLoopEnd b := by
  simp [countLoopEnd]

theorem countBufferEnd_append (a b : List Event) :
    countBufferEnd (a ++ b) = countBufferEnd a + countBufferEnd b := by
  simp [countBufferEnd]

theorem countBufferStart_append (a b : List Event) :
    countBufferStart (a ++ b) = countBufferStart a + countBufferStart b := by
  simp [countBufferStart]

theorem countLoopEnd_startEvt (cb : Option Callbacks) (pb ctx off : Nat) :
    countLoopEnd (startEvt cb pb ctx off) = 0 := by
  unfold startEvt countLoopEnd; split <;> simp

theorem countBufferEnd_startEvt (cb : Option Callbacks) (pb ctx off : Nat) :
    countBufferEnd (startEvt cb pb ctx off) = 0 := by
  unfold startEvt countBufferEnd; split <;> simp

theorem countBufferStart_startEvt (cb : Option Callbacks) (pb ctx off : Nat) :
    countBufferStart (startEvt cb pb ctx off) =
      if off = pb ∧ (cb.map Callbacks.onBufferStart).getD false = true then 1
      else 0 := by
  unfold startEvt countBufferStart; split <;> simp_all

theorem countLoopEnd_loopEndEvt (cb : Option Callbacks) (ctx : Nat) :
    countLoopEnd (loopEndEvt cb ctx) =
      if (cb.map Callbacks.onLoopEnd).getD false = true then 1 else 0 := by
  unfold loopEndEvt countLoopEnd; split <;> simp_all

theorem countBufferEnd_loopEndEvt (cb : Option Callbacks) (ctx : Nat) :
    countBufferEnd (loopEndEvt cb ctx) = 0 := by
  unfold loopEndEvt countBufferEnd; split <;> simp

theorem countBufferStart_loopEndEvt (cb : Option Callbacks) (ctx : Nat) :
    countBufferStart (loopEndEvt cb ctx) = 0 := by
  unfold loopEndEvt countBufferStart; split <;> simp

theorem countLoopEnd_endEvt (cb : Option Callbacks) (ctx : Nat) (eos : Bool) :
    countLoopEnd (endEvt cb ctx eos) = 0 := by
  unfold endEvt countLoopEnd; split <;> split <;> simp

theorem countBufferEnd_endEvt (cb : Option Callbacks) (ctx : Nat) (eos : Bool) :
    countBufferEnd (endEvt cb ctx eos) =
      if (cb.map Callbacks.onBufferEnd).getD false = true then 1 else 0 := by
  unfold endEvt countBufferEnd; split <;> split <;> simp_all

theorem countBufferStart_endEvt (cb : Option Callbacks) (ctx : Nat) (eos : Bool) :
    countBufferStart (endEvt cb ctx eos) = 0 := by
  unfold endEvt countBufferStart; split <;> split <;> simp

theorem countLoopEnd_loopEvents (cb : Option Callbacks) (pb lb ctx : Nat)
    (eos : Bool) (h : (cb.map Callbacks.onLoopEnd).getD false = true) :
    ∀ c off, countLoopEnd (loopEvents cb pb lb ctx eos c off) = c := by
  intro c
  induction c with
  | zero =>
    intro off
    simp [loopEvents, countLoopEnd_append, countLoopEnd_startEvt,
      countLoopEnd_endEvt]
  | succ c ih =>
    intro off
    simp [loopEvents, countLoopEnd_append, countLoopEnd_startEvt,
      countLoopEnd_loopEndEvt, h, ih]
    omega

theorem countBufferEnd_loopEvents (cb : Option Callbacks) (pb lb ctx : Nat)
    (eos : Bool) (h : (cb.map Callbacks.onBufferEnd).getD false = true) :
    ∀ c off, countBufferEnd (loopEvents cb pb lb ctx eos c off) = 1 := by
  intro c
  induction c with
  | zero =>
    intro off
    simp [loopEvents, countBufferEnd_append, countBufferEnd_startEvt,
      countBufferEnd_endEvt, h]
  | succ c ih =>
    intro off
    simp [loopEvents, countBufferEnd_append, countBufferEnd_startEvt,
      countBufferEnd_loopEndEvt, ih]

theorem countBufferStart_loopEvents_ne (cb : Option Callbacks)
    (pb lb ctx : Nat) (eos : Bool) (hne : lb ≠ pb) :
    ∀ c, countBufferStart (loopEvents cb pb lb ctx eos c lb) = 0 := by
  intro c
  induction c with
  | zero =>
    simp [loopEvents, countBufferStart_append, countBufferStart_startEvt,
      countBufferStart_endEvt, hne]
  | succ c ih =>
    simp [loopEvents, countBufferStart_append, countBufferStart_startEvt,
      countBufferStart_loopEndEvt, hne, ih]

theorem countBufferStart_loopEvents (cb : Option Callbacks) (pb lb ctx : Nat)
    (eos : Bool) (hne : lb ≠ pb)
    (h : (cb.map Callbacks.onBufferStart).getD false = true) :
    ∀ c, countBufferStart (loopEvents cb pb lb ctx eos c pb) = 1 := by
  intro c
  cases c with
  | zero =>
    simp [loopEvents, countBufferStart_append, countBufferStart_startEvt,
      countBufferStart_endEvt, h]
  | succ c =>
    simp [loopEvents, countBufferStart_append, countBufferStart_startEvt,
      countBufferStart_loopEndEvt, h,
      countBufferStart_loopEvents_ne cb pb lb ctx eos hne c]

/-! ### The infinite loop sentinel `0xFF` -/

/-- A head buffer with the infinite loop sentinel `LoopCount = 0xFF` is
never decremented and never finalised: for any fuel and request, the
buffer queue is unchanged and no `OnBufferEnd` fires. -/
theorem decodeLoop_infinite (decode : DecodeFn) (nCh : Nat)
    (cb : Option Callbacks) (toDecode : Nat) :
    ∀ (fuel : Nat) (b : FAudioBuffer) (rest : List FAudioBuffer)
      (off dec : Nat) (cache : List Int) (decoded : Nat),
    b.LoopCount = 0xFF →
    (decodeLoop decode nCh cb toDecode fuel
      ⟨b :: rest, off, dec, cache⟩ decoded).state.bufferList = b :: rest ∧
    countBufferEnd (decodeLoop decode nCh cb toDecode fuel
      ⟨b :: rest, off, dec, cache⟩ decoded).events = 0 := by
  intro fuel
  induction fuel with
  | zero => intro b rest off dec cache decoded _; exact ⟨rfl, rfl⟩
  | succ f ih =>
    intro b rest off dec cache decoded h255
    by_cases hd : decoded < toDecode
    · simp only [decodeLoop, if_pos hd]
      by_cases hb : min (u32sub (if b.LoopCount > 0 ∧ b.LoopLength > 0 then
          b.LoopLength else b.PlayLength) off) (toDecode - decoded) <
          toDecode - decoded
      · simp only [if_pos hb, if_pos (show b.LoopCount > 0 by omega),
          if_neg (show ¬ b.LoopCount < 0xFF by omega)]
        rw [show ({ b with LoopCount := b.LoopCount } : FAudioBuffer) = b from
          rfl]
        have h := ih b rest b.LoopBegin dec
          (writeAt cache (decoded * nCh) (decode b off
            (min (u32sub (if b.LoopCount > 0 ∧ b.LoopLength > 0 then
              b.LoopLength else b.PlayLength) off) (toDecode - decoded))))
          (decoded + min (u32sub (if b.LoopCount > 0 ∧ b.LoopLength > 0 then
            b.LoopLength else b.PlayLength) off) (toDecode - decoded)) h255
        refine ⟨h.1, ?_⟩
        simp only [countBufferEnd_append, countBufferEnd_startEvt,
          countBufferEnd_loopEndEvt, h.2]
      · simp only [if_neg hb]
        have h := ih b rest off dec
          (writeAt cache (decoded * nCh) (decode b off
            (min (u32sub (if b.LoopCount > 0 ∧ b.LoopLength > 0 then
              b.LoopLength else b.PlayLength) off) (toDecode - decoded))))
          (decoded + min (u32sub (if b.LoopCount > 0 ∧ b.LoopLength > 0 then
            b.LoopLength else b.PlayLength) off) (toDecode - decoded)) h255
        refine ⟨h.1, ?_⟩
        simp only [countBufferEnd_append, countBufferEnd_startEvt, h.2]
    · rw [decodeLoop_done _ _ _ _ _ _ _ hd]
      exact ⟨rfl, rfl⟩

/-! ### Claim C1: loop semantics of the buffer-queue decode step -/

/-- **C1**: a single queued buffer with loop counter `n ∈ 1..254`, a
nonzero loop window and registered callbacks, decoded with a request
exceeding everything it can yield, fires `OnLoopEnd` exactly `n` times
and `OnBufferEnd` exactly once; with the infinite sentinel `255` the
counter is never decremented (the queue still holds the unchanged
buffer) and the buffer never finalises, so `OnBufferEnd` never fires. -/
theorem claim_C1_loop_semantics (decode : DecodeFn) (nCh : Nat)
    (cbs : Callbacks) (b : FAudioBuffer) (dec : Nat) (cache : List Int)
    (toDecode fuel : Nat)
    (hle : cbs.onLoopEnd = true) (hbe : cbs.onBufferEnd = true)
    (hlw : b.LoopBegin < b.LoopLength) (hpw : b.LoopBegin ≤ b.PlayLength)
    (hpb : b.PlayBegin ≤ b.LoopLength)
    (h32l : b.LoopLength < 2 ^ 32) (h32p : b.PlayLength < 2 ^ 32) :
    (1 ≤ b.LoopCount → b.LoopCount ≤ 254 →
      loopTotal b.PlayLength b.LoopBegin b.LoopLength b.LoopCount
        b.PlayBegin < toDecode →
      b.LoopCount + 2 ≤ fuel →
      countLoopEnd (decodeLoop decode nCh (some cbs) toDecode fuel
        ⟨[b], b.PlayBegin, dec, cache⟩ 0).events = b.LoopCount ∧
      countBufferEnd (decodeLoop decode nCh (some cbs) toDecode fuel
        ⟨[b], b.PlayBegin, dec, cache⟩ 0).events = 1) ∧
    (b.LoopCount = 0xFF →
      countBufferEnd (decodeLoop decode nCh (some cbs) toDecode fuel
        ⟨[b], b.PlayBegin, dec, cache⟩ 0).events = 0 ∧
      (decodeLoop decode nCh (some cbs) toDecode fuel
        ⟨[b], b.PlayBegin, dec, cache⟩ 0).state.bufferList = [b]) := by
  constructor
  · intro h1 h254 hreq hfuel
    rw [decodeLoop_events_single decode nCh (some cbs) b.LoopCount b
      b.PlayBegin dec cache 0 toDecode fuel rfl h254 hlw hpw h32l h32p
      (by rw [if_neg (by omega)]; exact hpb) (by simpa using hreq) hfuel]
    exact ⟨countLoopEnd_loopEvents _ _ _ _ _ (by simpa using hle) _ _,
      countBufferEnd_loopEvents _ _ _ _ _ (by simpa using hbe) _ _⟩
  · intro h255
    have h := decodeLoop_infinite decode nCh (some cbs) toDecode fuel b []
      b.PlayBegin dec cache 0 h255
    exact ⟨h.2, h.1⟩

/-- Witness for **C1**: the concrete looping buffer `wBufC1`
(`LoopCount = 2`) fires `OnLoopEnd` twice and `OnBufferEnd` once. -/
theorem claim_C1_loop_semantics_witness :
    countLoopEnd (decodeLoop wDecode 1 (some wCbs) 12 5
      ⟨[wBufC1], wBufC1.PlayBegin, 0, List.replicate 16 9⟩ 0).events = 2 ∧
    countBufferEnd (decodeLoop wDecode 1 (some wCbs) 12 5
      ⟨[wBufC1], wBufC1.PlayBegin, 0, List.replicate 16 9⟩ 0).events = 1 :=
  (claim_C1_loop_semantics wDecode 1 wCbs wBufC1 0 (List.replicate 16 9) 12 5
    rfl rfl (by decide) (by decide) (by decide) (by decide) (by decide)).1
    (by decide) (by decide) (by decide) (by decide)

/-! ### Claim C8: the start-of-buffer notification -/

/-- **C8** counterexample: for a buffer whose loop start equals its play
start (`wBufC8`: `PlayBegin = LoopBegin = 0`, `LoopCount = 1`), a single
decode call fires `OnBufferStart` twice — the loop rewind returns the
play position to the play-window start and retriggers it — refuting
"fires exactly once over the buffer's lifetime ... regardless of whether
the buffer's loop window rewinds the position". -/
theorem claim_C8_counterexample :
    countBufferStart (decodeLoop wDecode 1 (some wCbs) 10 5
      ⟨[wBufC8], 0, 0, List.replicate 16 9⟩ 0).events = 2 ∧ (2 : Nat) ≠ 1 :=
  ⟨by decide, by decide⟩

/-- **C8** (amended): within a single buffer-queue decode call on a
queued buffer whose decode starts at the play-window start,
`OnBufferStart` fires exactly once provided the loop start differs from
the play-window start; when the loop start equals the play-window start a
loop rewind retriggers it (see the counterexample). -/
theorem claim_C8_buffer_start_once (decode : DecodeFn) (nCh : Nat)
    (cbs : Callbacks) (b : FAudioBuffer) (dec : Nat) (cache : List Int)
    (toDecode fuel : Nat)
    (hbs : cbs.onBufferStart = true)
    (hne : b.LoopBegin ≠ b.PlayBegin)
    (h1 : 1 ≤ b.LoopCount) (h254 : b.LoopCount ≤ 254)
    (hlw : b.LoopBegin < b.LoopLength) (hpw : b.LoopBegin ≤ b.PlayLength)
    (hpb : b.PlayBegin ≤ b.LoopLength)
    (h32l : b.LoopLength < 2 ^ 32) (h32p : b.PlayLength < 2 ^ 32)
    (hreq : loopTotal b.PlayLength b.LoopBegin b.LoopLength b.LoopCount
      b.PlayBegin < toDecode)
    (hfuel : b.LoopCount + 2 ≤ fuel) :
    countBufferStart (decodeLoop decode nCh (some cbs) toDecode fuel
      ⟨[b], b.PlayBegin, dec, cache⟩ 0).events = 1 := by
  rw [decodeLoop_events_single decode nCh (some cbs) b.LoopCount b
    b.PlayBegin dec cache 0 toDecode fuel rfl h254 hlw hpw h32l h32p
    (by rw [if_neg (by omega)]; exact hpb) (by simpa using hreq) hfuel]
  exact countBufferStart_loopEvents _ _ _ _ _ hne (by simpa using hbs) _

/-- Witness for the amended **C8**: the buffer `wBufC1` has
`LoopBegin = 2 ≠ 1 = PlayBegin`, and `OnBufferStart` fires exactly once
across its two loop rewinds. -/
theorem claim_C8_buffer_start_once_witness :
    countBufferStart (decodeLoop wDecode 1 (some wCbs) 12 5
      ⟨[wBufC1], wBufC1.PlayBegin, 0, List.replicate 16 9⟩ 0).events = 1 :=
  claim_C8_buffer_start_once wDecode 1 wCbs wBufC1 0 (List.replicate 16 9)
    12 5 rfl (by decide) (by decide) (by decide) (by decide) (by decide)
    (by decide) (by decide) (by decide) (by decide) (by decide)

/-! ### Claim C2: starvation zero-fill -/

/-- **C2** (code bug): a 4-frame request (`EXTRA_DECODE_PADDING = 2`,
so 6 padded samples) against the stereo 16-bit buffer `wBufC2`, which
holds only the 2 frames `(1,2), (3,4)`.  The claim requires the scratch
buffer to end up `[1, 2, 3, 4, 0, 0, 0, 0, ...]` — the 2 real frames
followed by all-zero frames on every channel.  The code's starvation
zero-fill `FAudio_zero(decodeCache + (decoded * nChannels + endRead),
(decoding - endRead) * sizeof(int16_t))` counts in frame units instead
of `nChannels`-element units: it actually produces
`[1, 2, 0, 0, 0, 0, 9, 9, ...]`, overwriting the second real frame
(element 2 is 0, not 3) and leaving stale data in the zero-fill region
(element 6 is still the sentinel 9). -/
theorem claim_C2_starvation_zero_fill_bug :
    (decodeBuffers FAudio_INTERNAL_DecodeStereoPCM16 2 (some wCbs) 2 3
      ⟨[wBufC2], 0, 0, List.replicate 12 9⟩ 4).1.state.decodeCache =
      [1, 2, 0, 0, 0, 0, 9, 9, 9, 9, 9, 9] ∧
    ((decodeBuffers FAudio_INTERNAL_DecodeStereoPCM16 2 (some wCbs) 2 3
      ⟨[wBufC2], 0, 0, List.replicate 12 9⟩ 4).1.state.decodeCache.getD 2 0
      ≠ 3 ∧
     (decodeBuffers FAudio_INTERNAL_DecodeStereoPCM16 2 (some wCbs) 2 3
      ⟨[wBufC2], 0, 0, List.replicate 12 9⟩ 4).1.state.decodeCache.getD 6 0
      ≠ 0) := by
  exact ⟨by decide, by decide, by decide⟩

/-! ### Claim C10: MSADPCM ignores PlayBegin, PCM does not -/

/-- **C10**: both MSADPCM decoders compute their block index and
intra-block offset from `curOffset` alone, so their output is
independent of the buffer's `PlayBegin` (first two conjuncts, for any
block alignment, offset and sample count); the uncompressed PCM decoders
instead read starting at `PlayBegin + curOffset` — shifting `PlayBegin`
into the offset leaves their output unchanged, exhibiting the additive
dependence (last two conjuncts, shown for the 8-bit mono and 16-bit
stereo variants). -/
theorem claim_C10_msadpcm_ignores_play_begin :
    (∀ (align : Nat) (b : FAudioBuffer) (pb off n : Nat),
      FAudio_INTERNAL_DecodeMonoMSADPCM align { b with PlayBegin := pb } off n =
        FAudio_INTERNAL_DecodeMonoMSADPCM align b off n) ∧
    (∀ (align : Nat) (b : FAudioBuffer) (pb off n : Nat),
      FAudio_INTERNAL_DecodeStereoMSADPCM align { b with PlayBegin := pb } off n =
        FAudio_INTERNAL_DecodeStereoMSADPCM align b off n) ∧
    (∀ (b : FAudioBuffer) (off n : Nat),
      FAudio_INTERNAL_DecodeMonoPCM8 b off n =
        FAudio_INTERNAL_DecodeMonoPCM8 { b with PlayBegin := 0 }
          (b.PlayBegin + off) n) ∧
    (∀ (b : FAudioBuffer) (off n : Nat),
      FAudio_INTERNAL_DecodeStereoPCM16 b off n =
        FAudio_INTERNAL_DecodeStereoPCM16 { b with PlayBegin := 0 }
          (b.PlayBegin + off) n) := by
  refine ⟨fun _ _ _ _ _ => rfl, fun _ _ _ _ _ => rfl, ?_, ?_⟩
  · intro b off n
    simp [FAudio_INTERNAL_DecodeMonoPCM8]
  · intro b off n
    simp [FAudio_INTERNAL_DecodeStereoPCM16]

/-! ### Claims C4 and C5: the resampler fast path and the cached step -/

theorem FIXED_ONE_eq : FIXED_ONE = 2 ^ 32 := by
  simp [FIXED_ONE, FIXED_PRECISION, Nat.one_shiftLeft]

theorem fixedToQ_zero : fixedToQ 0 = 0 := by
  simp [fixedToQ]

theorem pureConvert_eq_map (cache : List Int) :
    ∀ (n base : Nat), pureConvert cache n base =
      (List.range n).map fun i => (cache.getD (base + i) 0 : ℚ) / 32768 := by
  intro n
  induction n with
  | zero => intro base; simp [pureConvert]
  | succ n ih =>
    intro base
    have hfun : ((fun i => ((cache.getD (base + i) 0 : ℚ)) / 32768) ∘ Nat.succ) =
        fun i => ((cache.getD (base + 1 + i) 0 : ℚ)) / 32768 := by
      funext i
      simp only [Function.comp_apply]
      have h : base + Nat.succ i = base + 1 + i := by omega
      rw [h]
    rw [List.range_succ_eq_map, pureConvert, ih (base + 1)]
    simp only [List.map_cons, Nat.add_zero, List.map_map, hfun]

theorem fastPathConvert_eq_pureConvert (cache : List Int) (n : Nat) :
    fastPathConvert cache n = pureConvert cache n 0 := by
  rw [fastPathConvert, pureConvert_eq_map]
  simp

theorem resampleMono_one (cache : List Int) :
    ∀ (n base : Nat), resampleMono cache FIXED_ONE n base 0 =
      pureConvert cache n base := by
  intro n
  induction n with
  | zero => intro base; rfl
  | succ n ih =>
    intro base
    rw [resampleMono, pureConvert]
    have h1 : ((0 + FIXED_ONE) % 2 ^ 64) / 2 ^ 32 = 1 := by
      rw [FIXED_ONE_eq]; omega
    have h2 : ((0 + FIXED_ONE) % 2 ^ 64) % 2 ^ 32 = 0 := by
      rw [FIXED_ONE_eq]; omega
    rw [h1, h2, ih (base + 1), fixedToQ_zero]
    ring_nf

theorem resampleStereo_one (cache : List Int) :
    ∀ (n base : Nat), resampleStereo cache FIXED_ONE n base 0 =
      pureConvert cache (2 * n) base := by
  intro n
  induction n with
  | zero => intro base; rfl
  | succ n ih =>
    intro base
    rw [resampleStereo]
    have h1 : ((0 + FIXED_ONE) % 2 ^ 64) / 2 ^ 32 = 1 := by
      rw [FIXED_ONE_eq]; omega
    have h2 : ((0 + FIXED_ONE) % 2 ^ 64) % 2 ^ 32 = 0 := by
      rw [FIXED_ONE_eq]; omega
    rw [h1, h2, ih (base + 2 * 1), fixedToQ_zero]
    rw [show 2 * (n + 1) = 2 * n + 1 + 1 by ring, pureConvert, pureConvert]
    rw [show base + 1 + 1 = base + 2 * 1 by ring]
    ring_nf

/-- **C4** counterexample: with the step exactly 1.0 but a nonzero
fractional phase (`resampleOffset = 2^31`, i.e. phase one half), the
generic interpolating path lerps halfway between samples 0 and 100 while
the direct-normalisation fast path reads sample 0 — the float outputs
are not bit-identical for the same decoded input and starting resampler
state. -/
theorem claim_C4_counterexample :
    (FAudio_INTERNAL_ResamplePCM 1 [0, 100] FIXED_ONE (2 ^ 31) 1).1 ≠
      fastPathConvert [0, 100] (1 * 1) := by
  have hf : fixedToQ 2147483648 = 1 / 2 := by
    norm_num [fixedToQ, FIXED_PRECISION, FIXED_ONE_eq,
      Nat.shiftRight_eq_div_pow]
  have hL : (FAudio_INTERNAL_ResamplePCM 1 [0, 100] FIXED_ONE (2 ^ 31) 1).1 =
      [25 / 16384] := by
    rw [FAudio_INTERNAL_ResamplePCM]
    norm_num [resampleMono, hf]
  have hR : fastPathConvert [0, 100] (1 * 1) = [0] := by
    norm_num [fastPathConvert, List.range_succ]
  rw [hL, hR]
  norm_num

/-- **C4** (amended): when the resample step is exactly `FIXED_ONE`
(which is what `rateRatio == 1` with equal source and destination rates
produces, see `claim_C5_resample_step`) **and the starting fractional
phase is zero**, the generic interpolating path and the direct
int16 → float fast path produce identical float output for the same
decoded input, for both the mono and the unrolled stereo loop; and the
fractional phase the interpolating path leaves in `resampleOffset`
equals the starting one (the fast path leaves `resampleOffset`
untouched, so both paths leave the same zero phase). -/
theorem claim_C4_fast_path_equivalence (cache : List Int)
    (off toResample nCh : Nat)
    (hph : off % 2 ^ 32 = 0) (hch : nCh = 1 ∨ nCh = 2) :
    (FAudio_INTERNAL_ResamplePCM nCh cache FIXED_ONE off toResample).1 =
      fastPathConvert cache (toResample * nCh) ∧
    (FAudio_INTERNAL_ResamplePCM nCh cache FIXED_ONE off toResample).2 % 2 ^ 32 =
      off % 2 ^ 32 := by
  constructor
  · rcases hch with h | h <;> subst h
    · rw [FAudio_INTERNAL_ResamplePCM]
      simp only [if_neg (by norm_num : ¬ (1 : Nat) = 2)]
      rw [hph, resampleMono_one, fastPathConvert_eq_pureConvert, mul_one]
    · rw [FAudio_INTERNAL_ResamplePCM]
      simp only [if_pos rfl]
      rw [hph, resampleStereo_one, fastPathConvert_eq_pureConvert,
        Nat.mul_comm]
      simp
  · simp only [FAudio_INTERNAL_ResamplePCM, FIXED_ONE_eq]
    omega

/-- Witness for the amended **C4**: a concrete stereo cache, phase 0,
two output frames. -/
theorem claim_C4_fast_path_equivalence_witness :
    (FAudio_INTERNAL_ResamplePCM 2 [1, 2, 3, 4, 5, 6] FIXED_ONE 0 2).1 =
      fastPathConvert [1, 2, 3, 4, 5, 6] (2 * 2) ∧
    (FAudio_INTERNAL_ResamplePCM 2 [1, 2, 3, 4, 5, 6] FIXED_ONE 0 2).2 % 2 ^ 32 =
      0 % 2 ^ 32 :=
  claim_C4_fast_path_equivalence [1, 2, 3, 4, 5, 6] 0 2 2 (by decide)
    (Or.inr rfl)

/-- **C5**: the cached resample step.  The code's computation
(`DOUBLE_TO_FIXED(freqRatio * nSamplesPerSec / outputRate)`) equals the
spec's `round(rateRatio * sourceRate / destRate * 2^32)` with
round-half-up, for every ratio and rate pair (first conjunct, arithmetic
idealised over ℚ); when the cached ratio differs from the requested one
the recomputation sets exactly the cached step and cached ratio and
nothing else (second conjunct); when the ratio is unchanged the voice
state is completely untouched (third conjunct); and the recomputation is
idempotent (fourth conjunct). -/
theorem claim_C5_resample_step (v : SourceVoiceRate) :
    (∀ (ratio : ℚ) (srcRate dstRate : Nat),
      computeResampleStep ratio srcRate dstRate =
        specResampleStep ratio srcRate dstRate) ∧
    (v.resampleFreqRatio ≠ v.freqRatio →
      updateResampleStep v =
        { v with
          resampleStep :=
            specResampleStep v.freqRatio v.nSamplesPerSec (outputRate v),
          resampleFreqRatio := v.freqRatio }) ∧
    (v.resampleFreqRatio = v.freqRatio → updateResampleStep v = v) ∧
    updateResampleStep (updateResampleStep v) = updateResampleStep v := by
  have hstep : ∀ (ratio : ℚ) (srcRate dstRate : Nat),
      computeResampleStep ratio srcRate dstRate =
        specResampleStep ratio srcRate dstRate := by
    intro r s d
    unfold computeResampleStep specResampleStep DOUBLE_TO_FIXED
    rw [round_eq]
    norm_num [FIXED_ONE_eq]
  refine ⟨hstep, ?_, ?_, ?_⟩
  · intro hne
    simp [updateResampleStep, hne, hstep]
  · intro heq
    simp [updateResampleStep, heq]
  · by_cases h : v.resampleFreqRatio = v.freqRatio
    · simp [updateResampleStep, h]
    · simp [updateResampleStep, h]

/-! ### Claim C3: additive mixing into a shared destination -/

/-- One mono source voice distributing one frame into a mono destination
sample `d` adds its gain-weighted sample and clamps (a single pass of
the lines 415–434 loop). -/
theorem mixSourceSendInto_single (m s cv v c d : ℚ) :
    mixSourceSendInto m 1 1 1 [s] [cv] v [c] [d] =
      [FAudio_clamp (d + s * cv * v * c) (-m) m] := by
  simp [mixSourceSendInto, mixAccumulate, show List.range 1 = [0] from rfl]

/-- **C3** counterexample: ceiling 1 (the ceiling is a header constant,
kept as a parameter), unit gains, samples `2` and `-2`, destination
initially 0.  Processing voice 1 then voice 2 leaves `-1`; the opposite
order leaves `1`: because the clamp applies after every individual
accumulation, the result is order-dependent (and neither equals
`clamp(g1*s1 + g2*s2) = 0`), refuting the claim as stated. -/
theorem claim_C3_counterexample :
    mixSourceSendInto 1 1 1 1 [-2] [1] 1 [1]
        (mixSourceSendInto 1 1 1 1 [2] [1] 1 [1] [0]) = [-1] ∧
    mixSourceSendInto 1 1 1 1 [2] [1] 1 [1]
        (mixSourceSendInto 1 1 1 1 [-2] [1] 1 [1] [0]) = [1] ∧
    [(-1 : ℚ)] ≠ [(1 : ℚ)] := by
  refine ⟨?_, ?_, by norm_num⟩ <;>
    norm_num [mixSourceSendInto, mixAccumulate, FAudio_clamp,
      show List.range 1 = [0] from rfl]

/-- **C3** (amended): two mono source voices with effective gains
`gᵢ = channelVolumeᵢ * volumeᵢ * sendCoefficientᵢ` sending into the same
destination sample (initially 0) leave exactly
`clamp(g1*s1 + g2*s2, -max, max)` **provided each individual
contribution already fits the ceiling** (`|gᵢ*sᵢ| ≤ max`), and under
that proviso the result is independent of the processing order even
though each accumulation clamps.  (Without the proviso the intermediate
clamp engages and the claim fails — see the counterexample.) -/
theorem claim_C3_additive_mixing (m cv1 v1 c1 cv2 v2 c2 s1 s2 : ℚ)
    (h1 : |s1 * cv1 * v1 * c1| ≤ m) (h2 : |s2 * cv2 * v2 * c2| ≤ m) :
    mixSourceSendInto m 1 1 1 [s2] [cv2] v2 [c2]
        (mixSourceSendInto m 1 1 1 [s1] [cv1] v1 [c1] [0]) =
      [FAudio_clamp (s1 * cv1 * v1 * c1 + s2 * cv2 * v2 * c2) (-m) m] ∧
    mixSourceSendInto m 1 1 1 [s1] [cv1] v1 [c1]
        (mixSourceSendInto m 1 1 1 [s2] [cv2] v2 [c2] [0]) =
      [FAudio_clamp (s1 * cv1 * v1 * c1 + s2 * cv2 * v2 * c2) (-m) m] := by
  obtain ⟨ha1, ha2⟩ := abs_le.mp h1
  obtain ⟨hb1, hb2⟩ := abs_le.mp h2
  have hA : FAudio_clamp (0 + s1 * cv1 * v1 * c1) (-m) m =
      s1 * cv1 * v1 * c1 := by
    rw [zero_add]
    unfold FAudio_clamp
    rw [if_neg (not_lt.mpr ha1), if_neg (not_lt.mpr ha2)]
  have hB : FAudio_clamp (0 + s2 * cv2 * v2 * c2) (-m) m =
      s2 * cv2 * v2 * c2 := by
    rw [zero_add]
    unfold FAudio_clamp
    rw [if_neg (not_lt.mpr hb1), if_neg (not_lt.mpr hb2)]
  constructor
  · rw [mixSourceSendInto_single, hA, mixSourceSendInto_single]
  · rw [mixSourceSendInto_single, hB, mixSourceSendInto_single,
      add_comm (s2 * cv2 * v2 * c2)]

/-- Witness for the amended **C3**: ceiling 1, unit gains, samples `1/2`
and `1/4` — both orders leave `clamp(3/4) = 3/4`. -/
theorem claim_C3_additive_mixing_witness :
    mixSourceSendInto 1 1 1 1 [(1 : ℚ)/4] [1] 1 [1]
        (mixSourceSendInto 1 1 1 1 [(1 : ℚ)/2] [1] 1 [1] [0]) =
      [FAudio_clamp ((1 : ℚ)/2 * 1 * 1 * 1 + (1 : ℚ)/4 * 1 * 1 * 1) (-1) 1] ∧
    mixSourceSendInto 1 1 1 1 [(1 : ℚ)/2] [1] 1 [1]
        (mixSourceSendInto 1 1 1 1 [(1 : ℚ)/4] [1] 1 [1] [0]) =
      [FAudio_clamp ((1 : ℚ)/2 * 1 * 1 * 1 + (1 : ℚ)/4 * 1 * 1 * 1) (-1) 1] :=
  claim_C3_additive_mixing 1 1 1 1 1 1 1 ((1 : ℚ)/2) ((1 : ℚ)/4)
    (by rw [abs_le]; constructor <;> norm_num)
    (by rw [abs_le]; constructor <;> norm_num)

/-! ### Claim C9: the submix end-of-block reset -/

/-- **C9**: after `FAudio_INTERNAL_MixSubmix` the voice's input
accumulator is entirely zero — whether or not it has sends, and for any
behaviour of the external resample capability; and when the voice has no
sends, no destination buffer is written at all. -/
theorem claim_C9_submix_reset (maxVol : ℚ)
    (resampleFn : List ℚ → Nat → Nat → List ℚ × Nat)
    (v : SubmixVoice) (targets : List SendTarget)
    (hlen : v.inputCache.length = v.inputSamples) :
    (FAudio_INTERNAL_MixSubmix maxVol resampleFn v targets).1.inputCache =
      List.replicate v.inputSamples 0 ∧
    (targets = [] →
      (FAudio_INTERNAL_MixSubmix maxVol resampleFn v targets).2 = targets) := by
  have hz : zeroFloats v.inputCache v.inputSamples =
      List.replicate v.inputSamples 0 := by
    unfold zeroFloats
    rw [hlen, min_self, List.drop_eq_nil_of_le (le_of_eq hlen),
      List.append_nil]
  unfold FAudio_INTERNAL_MixSubmix
  by_cases h : targets.length = 0
  · rw [if_pos h]
    exact ⟨hz, fun _ => rfl⟩
  · rw [if_neg h]
    refine ⟨hz, fun ht => absurd (by rw [ht]; rfl) h⟩

/-- Witness for **C9**: a concrete stereo submix with two accumulated
frames and no sends: the accumulator is cleared and nothing else is
touched. -/
theorem claim_C9_submix_reset_witness :
    (FAudio_INTERNAL_MixSubmix 1 (fun i n _ => (i, n))
      ⟨2, 4, [1, 2, 3, 4], 4, [], [1, 1], 1⟩ []).1.inputCache =
      List.replicate 4 0 ∧
    ([] = ([] : List SendTarget) →
      (FAudio_INTERNAL_MixSubmix 1 (fun i n _ => (i, n))
        ⟨2, 4, [1, 2, 3, 4], 4, [], [1, 1], 1⟩ []).2 = []) :=
  claim_C9_submix_reset 1 (fun i n _ => (i, n))
    ⟨2, 4, [1, 2, 3, 4], 4, [], [1, 1], 1⟩ [] rfl

/-! ### Claim C7: the voice-processing-pass-end notification -/

/-- **C7** (code bug): when the buffer queue is empty,
`FAudio_INTERNAL_MixSource` returns at lines 321–324 **before** the
`end:` label, so a registered `OnVoiceProcessingPassEnd` callback never
fires — the pipeline's events are exactly the pass-start notification.
This contradicts the claim (and spec §4.3 step 7: "fire a
voice-processing-pass-end notification unconditionally, even if no
samples were produced"); the `mixed == 0` path does reach the label
and fire it, showing the early return is the slip. -/
theorem claim_C7_pass_end_skipped_on_empty_queue (decode : DecodeFn)
    (pad : Nat) (maxVol : ℚ) (dfuel lfuel : Nat) (v : SourceVoice)
    (targets : List SendTarget) (cbs : Callbacks)
    (hcb : v.cb = some cbs) (hps : cbs.onPassStart = true)
    (hpe : cbs.onPassEnd = true) (hempty : v.bufferList = []) :
    (FAudio_INTERNAL_MixSource decode pad maxVol dfuel lfuel v
      targets).2.2 = [Event.passStart (v.decodeSamples * 2)] ∧
    countPassEnd (FAudio_INTERNAL_MixSource decode pad maxVol dfuel lfuel v
      targets).2.2 = 0 := by
  have h0 : (mixSourceStepUpdate v targets).bufferList = [] := by
    unfold mixSourceStepUpdate
    split <;> simpa using hempty
  have hcb0 : (mixSourceStepUpdate v targets).cb = some cbs := by
    unfold mixSourceStepUpdate
    split <;> simpa using hcb
  have hds : (mixSourceStepUpdate v targets).decodeSamples =
      v.decodeSamples := by
    unfold mixSourceStepUpdate
    split <;> simp
  have hres : FAudio_INTERNAL_MixSource decode pad maxVol dfuel lfuel v
      targets = (mixSourceStepUpdate v targets, targets,
        [Event.passStart ((mixSourceStepUpdate v targets).decodeSamples * 2)]) := by
    unfold FAudio_INTERNAL_MixSource
    rw [if_pos h0, hcb0]
    simp [hps]
  rw [hres, hds]
  exact ⟨rfl, rfl⟩

/-- Witness for **C7**: the concrete empty-queue voice `wVoiceC7` — the
only event of its mix pass is `passStart 32`; no pass-end fires. -/
theorem claim_C7_pass_end_skipped_on_empty_queue_witness :
    (FAudio_INTERNAL_MixSource wDecode 2 1 4 4 wVoiceC7 []).2.2 =
      [Event.passStart (wVoiceC7.decodeSamples * 2)] ∧
    countPassEnd (FAudio_INTERNAL_MixSource wDecode 2 1 4 4 wVoiceC7
      []).2.2 = 0 :=
  claim_C7_pass_end_skipped_on_empty_queue wDecode 2 1 4 4 wVoiceC7 [] wCbs
    rfl rfl rfl rfl

/-! ### Claim C6: stage-ordered engine processing -/

theorem pairwise_key_const {α : Type} (key : α → Nat) (c : Nat) :
    ∀ l : List α, (∀ x ∈ l, key x = c) →
      l.Pairwise fun a b => key a ≤ key b := by
  intro l
  induction l with
  | nil => intro _; exact List.Pairwise.nil
  | cons a l ih =>
    intro h
    refine List.Pairwise.cons (fun b hb => ?_)
      (ih fun x hx => h x (List.mem_cons_of_mem a hx))
    rw [h a (List.mem_cons_self a l), h b (List.mem_cons_of_mem a hb)]

theorem pairwise_key_append {α : Type} (key : α → Nat) (n : Nat)
    (l1 l2 : List α)
    (h1 : ∀ x ∈ l1, key x ≤ n) (h2 : ∀ y ∈ l2, n ≤ key y)
    (p1 : l1.Pairwise fun a b => key a ≤ key b)
    (p2 : l2.Pairwise fun a b => key a ≤ key b) :
    (l1 ++ l2).Pairwise fun a b => key a ≤ key b := by
  rw [List.pairwise_append]
  exact ⟨p1, p2, fun x hx y hy => le_trans (h1 x hx) (h2 y hy)⟩

theorem key_engCbStart {a : Engine} {st : Nat} {x : EngineEv}
    (hx : x ∈ engCbStart a) : evKey st x = 0 := by
  simp only [engCbStart, List.mem_filterMap] at hx
  obtain ⟨c, _, hfc⟩ := hx
  split at hfc
  · cases hfc; rfl
  · cases hfc

theorem key_engSrc {a : Engine} {st : Nat} {x : EngineEv}
    (hx : x ∈ engSrc a) : evKey st x = 1 := by
  simp only [engSrc, List.mem_filterMap] at hx
  obtain ⟨s, _, hfs⟩ := hx
  split at hfs
  · cases hfs; rfl
  · cases hfs

theorem key_engSubGroup {a : Engine} {st i : Nat} {x : EngineEv}
    (hx : x ∈ engSubGroup a i) : evKey st x = 2 + i := by
  simp only [engSubGroup, List.mem_filterMap] at hx
  obtain ⟨m, _, hfm⟩ := hx
  split at hfm
  · cases hfm; rfl
  · cases hfm

theorem key_engCbEnd {a : Engine} {st : Nat} {x : EngineEv}
    (hx : x ∈ engCbEnd a) : evKey st x = 2 + st := by
  simp only [engCbEnd, List.mem_filterMap] at hx
  obtain ⟨c, _, hfc⟩ := hx
  split at hfc
  · cases hfc; rfl
  · cases hfc

theorem key_engSub {a : Engine} {st : Nat} {x : EngineEv}
    (hx : x ∈ engSub a) : ∃ i < a.submixStages, evKey st x = 2 + i := by
  simp only [engSub, List.mem_flatMap, List.mem_range] at hx
  obtain ⟨i, hi, hxi⟩ := hx
  exact ⟨i, hi, key_engSubGroup hxi⟩

theorem pairwise_engSub (a : Engine) (st : Nat) :
    ∀ n, ((List.range n).flatMap (engSubGroup a)).Pairwise
      fun x y => evKey st x ≤ evKey st y := by
  intro n
  induction n with
  | zero => exact List.Pairwise.nil
  | succ n ih =>
    rw [List.range_succ, List.flatMap_append]
    refine pairwise_key_append _ (2 + n) _ _ ?_ ?_ ih ?_
    · intro x hx
      simp only [List.mem_flatMap, List.mem_range] at hx
      obtain ⟨i, hi, hxi⟩ := hx
      rw [key_engSubGroup hxi]
      omega
    · intro y hy
      simp only [List.flatMap_singleton] at hy
      rw [key_engSubGroup hy]
    · refine pairwise_key_const _ (2 + n) _ fun x hx => ?_
      simp only [List.flatMap_singleton] at hx
      exact key_engSubGroup hx

/-- The engine trace is sorted by processing phase: pass-start
callbacks, then sources, then submixes in ascending stage order, then
pass-end callbacks. -/
theorem pairwise_updateEngineTrace (a : Engine) :
    (updateEngineTrace a).Pairwise
      fun x y => evKey a.submixStages x ≤ evKey a.submixStages y := by
  unfold updateEngineTrace
  split
  · exact List.Pairwise.nil
  · refine pairwise_key_append _ (2 + a.submixStages) _ _ ?_
      (fun y hy => le_of_eq (key_engCbEnd hy).symm) ?_
      (pairwise_key_const _ (2 + a.submixStages) _ fun x hx => key_engCbEnd hx)
    · intro x hx
      rcases List.mem_append.mp hx with hx | hx
      · rcases List.mem_append.mp hx with hx | hx
        · rw [key_engCbStart hx]; omega
        · rw [key_engSrc hx]; omega
      · obtain ⟨i, hi, hk⟩ := key_engSub hx
        rw [hk]; omega
    · refine pairwise_key_append _ 2 _ _ ?_ ?_ ?_ (pairwise_engSub a _ _)
      · intro x hx
        rcases List.mem_append.mp hx with hx | hx
        · rw [key_engCbStart hx]; omega
        · rw [key_engSrc hx]; omega
      · intro y hy
        obtain ⟨i, _, hk⟩ := key_engSub hy
        rw [hk]; omega
      · refine pairwise_key_append _ 1 _ _
          (fun x hx => by rw [key_engCbStart hx]; omega)
          (fun y hy => le_of_eq (key_engSrc hy).symm)
          (pairwise_key_const _ 0 _ fun x hx => key_engCbStart hx)
          (pairwise_key_const _ 1 _ fun x hx => key_engSrc hx)

/-- **C6**: wherever a stage-`k` submix mix appears in the engine update
trace, every active source voice's mix and every strictly-lower-stage
submix's mix already appear before it (assuming every submix's stage is
below the engine's stage count, the invariant voice creation
maintains). -/
theorem claim_C6_stage_ordering (a : Engine)
    (hst : ∀ w ∈ a.submixes, w.stage < a.submixStages) :
    ∀ (l1 l2 : List EngineEv) (k j : Nat),
      updateEngineTrace a = l1 ++ EngineEv.mixSub k j :: l2 →
      (∀ s ∈ a.sources, s.active = true → EngineEv.mixSrc s.id ∈ l1) ∧
      (∀ w ∈ a.submixes, w.stage < k → EngineEv.mixSub w.stage w.id ∈ l1) := by
  intro l1 l2 k j hsplit
  have hact : ¬ a.active = false := by
    intro h
    have hnil : updateEngineTrace a = [] := by
      unfold updateEngineTrace
      rw [if_pos h]
    rw [hnil] at hsplit
    exact List.not_mem_nil _ (hsplit ▸ List.mem_append_right l1
      (List.mem_cons_self _ _))
  have htrace : updateEngineTrace a =
      engCbStart a ++ engSrc a ++ engSub a ++ engCbEnd a := by
    unfold updateEngineTrace
    rw [if_neg hact]
  have hpw := pairwise_updateEngineTrace a
  rw [hsplit, List.pairwise_append, List.pairwise_cons] at hpw
  obtain ⟨-, ⟨hafter, -⟩, -⟩ := hpw
  have hmemsrc : ∀ s ∈ a.sources, s.active = true →
      EngineEv.mixSrc s.id ∈ updateEngineTrace a := by
    intro s hs hsa
    rw [htrace]
    refine List.mem_append_left _ (List.mem_append_left _
      (List.mem_append_right _ ?_))
    exact List.mem_filterMap.mpr ⟨s, hs, by simp [hsa]⟩
  have hmemsub : ∀ w ∈ a.submixes,
      EngineEv.mixSub w.stage w.id ∈ updateEngineTrace a := by
    intro w hw
    rw [htrace]
    refine List.mem_append_left _ (List.mem_append_right _ ?_)
    exact List.mem_flatMap.mpr ⟨w.stage, List.mem_range.mpr (hst w hw),
      List.mem_filterMap.mpr ⟨w, hw, by simp⟩⟩
  constructor
  · intro s hs hsa
    have hmem : EngineEv.mixSrc s.id ∈ l1 ++ EngineEv.mixSub k j :: l2 := by
      rw [← hsplit]; exact hmemsrc s hs hsa
    rcases List.mem_append.mp hmem with h | h
    · exact h
    · rcases List.mem_cons.mp h with h | h
      · cases h
      · have := hafter _ h
        simp only [evKey] at this
        omega
  · intro w hw hwk
    have hmem : EngineEv.mixSub w.stage w.id ∈
        l1 ++ EngineEv.mixSub k j :: l2 := by
      rw [← hsplit]; exact hmemsub w hw
    rcases List.mem_append.mp hmem with h | h
    · exact h
    · rcases List.mem_cons.mp h with h | h
      · cases h; omega
      · have := hafter _ h
        simp only [evKey] at this
        omega

/-- Witness for **C6**: a concrete engine — one callback pair, one
active source, submixes at stages 0 and 1 — split at the stage-1 submix:
the source mix and the stage-0 submix mix already happened. -/
theorem claim_C6_stage_ordering_witness :
    EngineEv.mixSrc 1 ∈ [EngineEv.procStart 9, EngineEv.mixSrc 1,
      EngineEv.mixSub 0 10] ∧
    EngineEv.mixSub 0 10 ∈ [EngineEv.procStart 9, EngineEv.mixSrc 1,
      EngineEv.mixSub 0 10] :=
  have h := claim_C6_stage_ordering
    ⟨true, [⟨true, true, 9⟩], [⟨true, 1⟩], [⟨0, 10⟩, ⟨1, 11⟩], 2⟩
    (by decide)
    [EngineEv.procStart 9, EngineEv.mixSrc 1, EngineEv.mixSub 0 10]
    [EngineEv.procEnd 9] 1 11 (by decide)
  ⟨h.1 ⟨true, 1⟩ (by decide) rfl, h.2 ⟨0, 10⟩ (by decide) (by decide)⟩

/-- Witness for **C5**: the concrete voice `wRateVoice` (ratio changed
from 1 to 2) gets the spec-formula step cached, and recomputing again is
the identity. -/
theorem claim_C5_resample_step_witness :
    updateResampleStep wRateVoice =
      { wRateVoice with
        resampleStep := specResampleStep 2 48000 44100,
        resampleFreqRatio := 2 } ∧
    updateResampleStep (updateResampleStep wRateVoice) =
      updateResampleStep wRateVoice :=
  ⟨(claim_C5_resample_step wRateVoice).2.1 (by norm_num [wRateVoice]),
   (claim_C5_resample_step wRateVoice).2.2.2⟩

end FAudio
